import Mathlib

/-!
Verification of the download-and-reconciliation engine of the
EpsteinScraper repository (`epstein_downloader.py`, `retry_skipped.py`)
against its natural-language specification.

The embedding models the Python source shallowly:
* paths are segment lists (`os.path.join a b` becomes `a ++ [b]`);
* the filesystem is a finite map from paths to file sizes plus a set of
  directories (file contents matter to the program only through sizes:
  `os.path.getsize(p) > 0` checks and empty-body detection), plus the set
  of directories whose listing raises `PermissionError`;
* the HTTP transport is an oracle `Net` giving, for each URL and each
  attempt number within one `download_file` call, either a completed
  response (status code and body size), a connection-level failure, or a
  mid-stream abort after some bytes were written to the temp file — all
  of which `requests` surfaces as `requests.RequestException` subclasses;
* Python exceptions are modelled with `Except PyExn`; the single
  `try/except requests.RequestException` in `download_file` catches
  exactly `PyExn.reqExn`.
-/

namespace EpsteinScraper

/-- Filesystem paths as lists of segments. -/
abbrev FsPath := List String

/-- The filesystem state: directories, files (path to size), and
directories whose `os.listdir` raises `PermissionError` (dehydrated
folders). -/
structure FS where
  dirs : List FsPath
  files : List (FsPath × Nat)
  unlistable : List FsPath
deriving DecidableEq

/-- Size of the file at `p`, if a file exists there (`os.path.getsize`). -/
def FS.size? (fs : FS) (p : FsPath) : Option Nat :=
  (fs.files.find? (fun e => e.1 = p)).map (fun e => e.2)

/-- `os.path.exists(p) and os.path.getsize(p) > 0`. -/
def FS.existsNonzero (fs : FS) (p : FsPath) : Bool :=
  match fs.size? p with
  | some n => 0 < n
  | none => false

/-- `os.path.isdir`. -/
def FS.isDir (fs : FS) (p : FsPath) : Bool :=
  decide (p ∈ fs.dirs)

/-- All nonempty ancestor paths of `p`, `p` itself included. -/
def ancestors (p : FsPath) : List FsPath :=
  (List.range p.length).map (fun i => p.take (i + 1))

/-- `os.makedirs(p, exist_ok=True)`: create `p` and every ancestor. -/
def FS.makedirs (fs : FS) (p : FsPath) : FS :=
  { fs with dirs := fs.dirs ++ (ancestors p).filter (fun d => d ∉ fs.dirs) }

/-- Write (create or truncate-and-write) a file of size `n` at `p`. -/
def FS.writeFile (fs : FS) (p : FsPath) (n : Nat) : FS :=
  { fs with files := fs.files.filter (fun e => e.1 ≠ p) ++ [(p, n)] }

/-- `os.remove p`. -/
def FS.removeFile (fs : FS) (p : FsPath) : FS :=
  { fs with files := fs.files.filter (fun e => e.1 ≠ p) }

/-- `os.replace src dst`: atomically rename `src` onto `dst`. -/
def FS.replaceFile (fs : FS) (src dst : FsPath) : FS :=
  match fs.size? src with
  | some n => (fs.removeFile src).writeFile dst n
  | none => fs

/-- `shutil.rmtree(p, ignore_errors=True)`: delete `p` and everything
below it. -/
def FS.rmtree (fs : FS) (p : FsPath) : FS :=
  { dirs := fs.dirs.filter (fun d => ¬ p <+: d)
    files := fs.files.filter (fun e => ¬ p <+: e.1)
    unlistable := fs.unlistable.filter (fun d => ¬ p <+: d) }

/-- `os.listdir d`: names of the immediate children of `d` (directories
first, then files; the order models CPython's arbitrary but fixed
ordering). -/
def FS.listdir (fs : FS) (d : FsPath) : List String :=
  (fs.dirs.filterMap (fun q =>
      if q.length = d.length + 1 ∧ d <+: q then q.getLast? else none)) ++
  (fs.files.filterMap (fun e =>
      if e.1.length = d.length + 1 ∧ d <+: e.1 then e.1.getLast? else none))

/-- The temporary sibling `local_path + ".tmp"`. -/
def tmpPath (p : FsPath) : FsPath :=
  match p.getLast? with
  | some s => p.dropLast ++ [s ++ ".tmp"]
  | none => []

/-! ## String helpers mirroring the Python library calls -/

/-- `url.replace(" ", "%20")`. -/
def encodeSpaces (s : String) : String :=
  String.join (s.data.map (fun c => if c = ' ' then "%20" else String.singleton c))

/-- Hexadecimal digit value, upper or lower case (as accepted by
`urllib.parse.unquote`). -/
def hexVal? (c : Char) : Option Nat :=
  if '0' ≤ c ∧ c ≤ '9' then some (c.toNat - '0'.toNat)
  else if 'a' ≤ c ∧ c ≤ 'f' then some (c.toNat - 'a'.toNat + 10)
  else if 'A' ≤ c ∧ c ≤ 'F' then some (c.toNat - 'A'.toNat + 10)
  else none

/-- Percent-decoding of `urllib.parse.unquote`, for single-byte escapes
(the URLs this program handles are ASCII; multi-byte UTF-8 escape
sequences are out of scope). An invalid escape leaves the `%` in place,
as in Python. -/
def unquoteChars : List Char → List Char
  | '%' :: h1 :: h2 :: rest =>
    match hexVal? h1, hexVal? h2 with
    | some a, some b => Char.ofNat (16 * a + b) :: unquoteChars rest
    | _, _ => '%' :: unquoteChars (h1 :: h2 :: rest)
  | c :: rest => c :: unquoteChars rest
  | [] => []

/-- `urllib.parse.unquote`. -/
def unquote (s : String) : String :=
  String.mk (unquoteChars s.data)

/-- ASCII whitespace, the characters matched by the regex class `\s`. -/
def isPySpace (c : Char) : Bool :=
  c = ' ' ∨ c = '\t' ∨ c = '\n' ∨ c = '\x0d' ∨ c = '\x0b' ∨ c = '\x0c'

/-- Attempt to match the regex `DataSet\s*(\d+)` at the head of `cs`,
returning the captured digit group. -/
def matchDataSetAt (cs : List Char) : Option String :=
  if "DataSet".data.isPrefixOf cs then
    let rest := (cs.drop 7).dropWhile isPySpace
    let digits := rest.takeWhile Char.isDigit
    if digits.isEmpty then none else some (String.mk digits)
  else none

/-- `re.search(r"DataSet\s*(\d+)", s)`: leftmost match, returning the
captured digit group. -/
def dsScan : List Char → Option String
  | [] => none
  | c :: cs =>
    match matchDataSetAt (c :: cs) with
    | some ds => some ds
    | none => dsScan cs

/-- `decoded.split("/")[-1]`: the substring after the last `/` (the whole
string when there is no `/`). -/
def afterLastSlash (s : String) : String :=
  String.mk ((s.data.reverse.takeWhile (fun c => c ≠ '/')).reverse)

/-- Split a character list at its last `.`, returning the parts before
and after it, or `none` when there is no dot. -/
def splitAtLastDot : List Char → Option (List Char × List Char)
  | [] => none
  | c :: rest =>
    match splitAtLastDot rest with
    | some pr => some (c :: pr.1, pr.2)
    | none => if c = '.' then some ([], rest) else none

/-- The root part of `os.path.splitext(name)` for a slash-free `name`:
strip the extension at the last dot, unless every character before that
dot is itself a dot (so `".bashrc"` keeps its name). -/
def splitextRoot (name : String) : String :=
  match splitAtLastDot name.data with
  | none => name
  | some pr => if pr.1.any (fun c => c ≠ '.') then String.mk pr.1 else name

/-- `video_url.rsplit(".", 1)[0]`: everything before the last dot (the
whole string when there is no dot). -/
def stripToLastDot (s : String) : String :=
  match splitAtLastDot s.data with
  | some pr => String.mk pr.1
  | none => s

/-- The network-location part of `urllib.parse.urlparse(url).netloc` for
URLs of the shape `scheme://host/...`: the text after the first `://` up
to the first `/`, `?` or `#`; empty when the URL has no `://`. -/
def urlNetloc (s : String) : String :=
  String.mk (netlocAfterScheme s.data)
where
  netlocAfterScheme : List Char → List Char
  | [] => []
  | c :: rest =>
    if "://".data.isPrefixOf (c :: rest) then
      ((c :: rest).drop 3).takeWhile (fun x => x ≠ '/' ∧ x ≠ '?' ∧ x ≠ '#')
    else netlocAfterScheme rest

/-- One pass of Python's `str.replace` with pattern `p0 :: ps`
(left-to-right, non-overlapping, all occurrences). The `fuel` argument
makes the recursion structural; every step consumes at least one
character, so `fuel = cs.length` always suffices. -/
def replaceFrom (p0 : Char) (ps : List Char) (repl : List Char) : Nat → List Char → List Char
  | 0, cs => cs
  | _ + 1, [] => []
  | fuel + 1, c :: rest =>
    if (p0 :: ps).isPrefixOf (c :: rest) then
      repl ++ replaceFrom p0 ps repl fuel (rest.drop ps.length)
    else
      c :: replaceFrom p0 ps repl fuel rest

/-- Python `s.replace(pat, repl)` for a nonempty pattern. -/
def pyReplace (s pat repl : String) : String :=
  match pat.data with
  | [] => s
  | p0 :: ps => String.mk (replaceFrom p0 ps repl.data s.data.length s.data)

/-! ## Identity Resolver (`parse_url_info`, epstein_downloader.py:435) -/

/-- `parse_url_info(url)`: derives `(group, file_id)` from a primary URL.
DOJ URLs containing `DataSet <N>` map to `("DataSet_<N>", stem)`; any
other URL maps to the normalized domain and the decoded filename stem
(or `"unknown"` when the stem is empty). -/
def parse_url_info (url : String) : String × String :=
  match dsScan (unquote url).data with
  | some n =>
    ("DataSet_" ++ n, splitextRoot (afterLastSlash (unquote url)))
  | none =>
    (pyReplace (pyReplace (urlNetloc url) "www." "") "." "_",
      if splitextRoot (afterLastSlash (unquote url)) = "" then "unknown"
      else splitextRoot (afterLastSlash (unquote url)))

/-- The canonical progress key `f"{group}/{file_id}"` of a primary URL. -/
def pairKey (pdfUrl : String) : String :=
  (parse_url_info pdfUrl).1 ++ "/" ++ (parse_url_info pdfUrl).2

example : parse_url_info "https://host/DataSet 3/ABC.pdf" = ("DataSet_3", "ABC") := by
  decide

example : parse_url_info "https://example.com/files/x.pdf" = ("example_com", "x") := by
  decide

/-! ## Transport model -/

/-- The outcome the transport produces for one `session.get`: a completed
streamed response with a status code and a body of `body` bytes, a
connection-level error (timeout, refused connection, ...), or an abort in
mid-stream after `written` bytes were already written to the temp file.
The latter two surface as `requests.RequestException`. -/
inductive Resp where
  | status (code : Nat) (body : Nat)
  | connErr
  | abortMid (written : Nat)
deriving DecidableEq

/-- The transport oracle: the response for a given URL at a given
(0-based) attempt index within one `download_file` call. -/
abbrev Net := String → Nat → Resp

/-- Python exceptions relevant to the modelled code. `reqExn` stands for
every `requests.RequestException` subclass (`HTTPError`, timeouts,
connection and mid-stream errors): exactly what the `except` clause in
`download_file` catches. The others are raised by `load_progress` on
badly-shaped JSON and are caught nowhere. -/
inductive PyExn where
  | reqExn
  | attrError
  | typeError
deriving DecidableEq

/-! ## Single-File Fetcher (`download_file`, epstein_downloader.py:461) -/

/-- Result of one `download_file` call: the returned boolean, the final
filesystem, the list of URLs requested over the network (in order, with
multiplicity), and the intermediate filesystem states after each
mutation. -/
structure FetchOut where
  ok : Bool
  fs : FS
  reqs : List String
  trace : List FS

/-- Result of the body of one `try:` block iteration in `download_file`:
either a returned boolean or a raised exception, together with the
filesystem mutations it performed. -/
structure Attempt where
  result : Except PyExn Bool
  fs : FS
  trace : List FS

/-- One iteration of the `try:` block in `download_file`: issue the GET,
return `False` on 403/404, let `raise_for_status` raise `HTTPError` on a
4xx/5xx status (`requests` raises only for 400 ≤ status < 600; any other
three-digit status the server delivers is passed through), otherwise
stream the body to the temp sibling and either promote it (non-empty) or
discard it (empty). A mid-stream abort leaves the bytes written so far
in the temp file and raises. -/
def attemptOnce (net : Net) (enc : String) (p : FsPath) (k : Nat) (fs : FS) : Attempt :=
  match net enc k with
  | .connErr => ⟨.error .reqExn, fs, []⟩
  | .abortMid w =>
    let fs1 := fs.writeFile (tmpPath p) w
    ⟨.error .reqExn, fs1, [fs1]⟩
  | .status c b =>
    if c = 403 ∨ c = 404 then ⟨.ok false, fs, []⟩
    else if 400 ≤ c ∧ c < 600 then ⟨.error .reqExn, fs, []⟩
    else
      let fs1 := fs.writeFile (tmpPath p) b
      if 0 < b then
        let fs2 := fs1.replaceFile (tmpPath p) p
        ⟨.ok true, fs2, [fs1, fs2]⟩
      else
        let fs2 := fs1.removeFile (tmpPath p)
        ⟨.ok false, fs2, [fs1, fs2]⟩

/-- The cleanup in the `except` branch: remove the temp sibling and the
final path if they exist. Returns the new filesystem and the snapshots. -/
def cleanupTemp (fs : FS) (p : FsPath) : FS × List FS :=
  let fs1 := if (fs.size? (tmpPath p)).isSome then fs.removeFile (tmpPath p) else fs
  let fs2 := if (fs1.size? p).isSome then fs1.removeFile p else fs1
  (fs2, [fs1, fs2])

/-- The retry loop of `download_file`: up to `fuel` attempts, catching
`requests.RequestException` (`PyExn.reqExn`), cleaning up and retrying;
any other exception would propagate. Exhausting the attempts returns
`False`. -/
def fetchLoop (net : Net) (enc : String) (p : FsPath) :
    Nat → Nat → FS → Except PyExn FetchOut
  | 0, _, fs => .ok ⟨false, fs, [], []⟩
  | fuel + 1, k, fs =>
    let a := attemptOnce net enc p k fs
    match a.result with
    | .ok b => .ok ⟨b, a.fs, [enc], a.trace⟩
    | .error e =>
      if e = PyExn.reqExn then
        let c := cleanupTemp a.fs p
        match fetchLoop net enc p fuel (k + 1) c.1 with
        | .ok out => .ok ⟨out.ok, out.fs, enc :: out.reqs, a.trace ++ c.2 ++ out.trace⟩
        | .error e2 => .error e2
      else .error e

/-- `MAX_RETRIES` (epstein_downloader.py:140). -/
def MAX_RETRIES : Nat := 3

/-- `download_file(session, url, local_path)`: short-circuit when the
local file already exists non-empty, else URL-encode spaces, create the
parent directory, and run the retry loop. -/
def download_file (net : Net) (url : String) (p : FsPath) (fs : FS) :
    Except PyExn FetchOut :=
  if fs.existsNonzero p then .ok ⟨true, fs, [], []⟩
  else
    let fs1 := fs.makedirs p.dropLast
    match fetchLoop net (encodeSpaces url) p MAX_RETRIES 0 fs1 with
    | .ok out => .ok { out with trace := fs1 :: out.trace }
    | .error e => .error e

/-! ## Pair Materializer (`download_pair`, epstein_downloader.py:550) -/

/-- Result of the companion-probing loop inside `download_pair`: whether
some extension succeeded, the local path that succeeded, the filesystem,
the network requests, and the `(url, local path)` argument pairs passed
to `download_file`, in order. -/
structure CompOut where
  ok : Bool
  vidPath : Option FsPath
  fs : FS
  reqs : List String
  tried : List (String × FsPath)

/-- The companion-probing loop: for each extension in order, fetch the
original companion URL when the extension equals the first entry of the
extension list (`ext == video_extensions[0]` in the source compares
values), else `base + "." + ext`; save to `<folder>/<file_id>.<ext>`;
stop at the first success. -/
def companionLoop (net : Net) (videoUrl baseVideoUrl : String) (firstExt : Option String)
    (folder : FsPath) (fileId : String) :
    List String → FS → Except PyExn CompOut
  | [], fs => .ok ⟨false, none, fs, [], []⟩
  | e :: rest, fs =>
    match download_file net (if firstExt = some e then videoUrl else baseVideoUrl ++ "." ++ e)
        (folder ++ [fileId ++ "." ++ e]) fs with
    | .error ex => .error ex
    | .ok o =>
      if o.ok then
        .ok ⟨true, some (folder ++ [fileId ++ "." ++ e]), o.fs, o.reqs,
          [(if firstExt = some e then videoUrl else baseVideoUrl ++ "." ++ e,
            folder ++ [fileId ++ "." ++ e])]⟩
      else
        match companionLoop net videoUrl baseVideoUrl firstExt folder fileId rest o.fs with
        | .error ex => .error ex
        | .ok c =>
          .ok ⟨c.ok, c.vidPath, c.fs, o.reqs ++ c.reqs,
            (if firstExt = some e then videoUrl else baseVideoUrl ++ "." ++ e,
              folder ++ [fileId ++ "." ++ e]) :: c.tried⟩

/-- `video_url.rsplit(".", 1)[0] if "." in video_url else video_url`. -/
def pairBaseVideoUrl (videoUrl : String) : String :=
  if videoUrl.data.contains '.' then stripToLastDot videoUrl else videoUrl

/-- The URL the companion loop fetches for each extension of `es`, in
order (before space-encoding): the original companion URL for an
extension equal to the first list entry, otherwise the companion URL
stripped of its extension plus `"." + ext`. -/
def companionAttemptURLsAux (videoUrl baseVideoUrl : String) (firstExt : Option String)
    (es : List String) : List String :=
  es.map (fun e => if firstExt = some e then videoUrl else baseVideoUrl ++ "." ++ e)

/-- The companion attempt URLs of `download_pair` for a companion URL and
extension priority list. -/
def companionAttemptURLs (videoUrl : String) (es : List String) : List String :=
  companionAttemptURLsAux videoUrl (pairBaseVideoUrl videoUrl) es.head? es

/-- Result of `download_pair`: the `(pdf_ok, vid_ok, group, file_id)`
tuple the source returns, plus the filesystem, the successful companion
path, the network requests and the companion fetch arguments. -/
structure PairOut where
  pdfOk : Bool
  vidOk : Bool
  group : String
  fileId : String
  vidPath : Option FsPath
  fs : FS
  reqs : List String
  tried : List (String × FsPath)

/-- The folder-location step of `download_pair`
(epstein_downloader.py:562-575): scan the group directory for an entry
equal to `file_id` or starting with `file_id + " - "` (a folder renamed
by the summary step); a `PermissionError` while listing, a missing group
directory, or no match plan the default `group_dir/file_id`. -/
def pairFolderFound (fs : FS) (pdfUrl : String) (baseDir : FsPath) : Option FsPath :=
  if fs.isDir (baseDir ++ [(parse_url_info pdfUrl).1]) then
    if decide (baseDir ++ [(parse_url_info pdfUrl).1] ∈ fs.unlistable) then none
    else
      match (fs.listdir (baseDir ++ [(parse_url_info pdfUrl).1])).find?
          (fun e => e = (parse_url_info pdfUrl).2 ∨
            ((parse_url_info pdfUrl).2 ++ " - ").isPrefixOf e) with
      | some e => some (baseDir ++ [(parse_url_info pdfUrl).1] ++ [e])
      | none => none
  else none

def pairFolder (fs : FS) (pdfUrl : String) (baseDir : FsPath) : FsPath :=
  (pairFolderFound fs pdfUrl baseDir).getD
    (baseDir ++ [(parse_url_info pdfUrl).1] ++ [(parse_url_info pdfUrl).2])

/-- `download_pair(session, pdf_url, video_url, base_dir,
video_extensions)`: resolve the identity, find or plan the item folder,
create it, fetch the PDF to `<folder>/<file_id>.pdf`, probe companion
extensions, and remove the whole folder when no companion was
retrieved — returning `(False, False, ...)` in that case. -/
def download_pair (net : Net) (pdfUrl videoUrl : String) (baseDir : FsPath)
    (es : List String) (fs : FS) : Except PyExn PairOut :=
  match download_file net pdfUrl
      (pairFolder fs pdfUrl baseDir ++ [(parse_url_info pdfUrl).2 ++ ".pdf"])
      (fs.makedirs (pairFolder fs pdfUrl baseDir)) with
  | .error ex => .error ex
  | .ok o1 =>
    match companionLoop net videoUrl (pairBaseVideoUrl videoUrl) es.head?
        (pairFolder fs pdfUrl baseDir) (parse_url_info pdfUrl).2 es o1.fs with
    | .error ex => .error ex
    | .ok c =>
      if c.ok then
        .ok ⟨o1.ok, true, (parse_url_info pdfUrl).1, (parse_url_info pdfUrl).2,
          c.vidPath, c.fs, o1.reqs ++ c.reqs, c.tried⟩
      else
        .ok ⟨false, false, (parse_url_info pdfUrl).1, (parse_url_info pdfUrl).2,
          none, c.fs.rmtree (pairFolder fs pdfUrl baseDir), o1.reqs ++ c.reqs, c.tried⟩

/-! ## Progress Ledger and reconciliation -/

/-- `folder_exists_for_pair(pdf_url, output_dir)`
(epstein_downloader.py:798): a folder named `file_id` or
`file_id - <suffix>` exists under the group directory; a
`PermissionError` while listing counts as existing. -/
def folder_exists_for_pair (fs : FS) (pdfUrl : String) (outputDir : FsPath) : Bool :=
  let gi := parse_url_info pdfUrl
  let groupDir := outputDir ++ [gi.1]
  if fs.isDir groupDir then
    if decide (groupDir ∈ fs.unlistable) then true
    else (fs.listdir groupDir).any (fun e => e = gi.2 ∨ (gi.2 ++ " - ").isPrefixOf e)
  else false

/-- The non-force reconciliation loop of `main`
(epstein_downloader.py:1039-1048): skip pairs whose key is in the
ledger; add to the ledger the keys of pairs whose folder already exists
on disk; everything else remains to download. Returns
`(remaining, ledger')`. -/
def reconcileStep (fs : FS) (outputDir : FsPath)
    (acc : List (String × String) × Finset String) (pm : String × String) :
    List (String × String) × Finset String :=
  if pairKey pm.1 ∈ acc.2 then acc
  else if folder_exists_for_pair fs pm.1 outputDir then (acc.1, insert (pairKey pm.1) acc.2)
  else (acc.1 ++ [pm], acc.2)

def reconcileMain (fs : FS) (pairs : List (String × String)) (outputDir : FsPath)
    (completed : Finset String) : List (String × String) × Finset String :=
  pairs.foldl (reconcileStep fs outputDir) ([], completed)

/-- `find_skipped_pairs(pairs, output_dir)` (retry_skipped.py:51): the
pairs with no folder on disk. -/
def find_skipped_pairs (fs : FS) (pairs : List (String × String)) (outputDir : FsPath) :
    List (String × String) :=
  pairs.filter (fun pm => ¬ folder_exists_for_pair fs pm.1 outputDir)

/-- The ledger adjustment of `retry_skipped.main`
(retry_skipped.py:180-190): for every skipped pair (no folder on disk),
discard its key from the loaded ledger. -/
def retryReconcile (fs : FS) (pairs : List (String × String)) (outputDir : FsPath)
    (completed : Finset String) : Finset String :=
  (find_skipped_pairs fs pairs outputDir).foldl
    (fun comp pm => comp.erase (pairKey pm.1)) completed

/-- The dispatcher's handling of one completed `download_pair` future
(epstein_downloader.py:1076-1086): a pair is successful iff
`pdf_ok or vid_ok`; successful pairs add their key to the ledger,
failed ones only bump the failure count. -/
def processOutcome (pdfOk vidOk : Bool) (key : String) (completed : Finset String)
    (succ failed : Nat) : Finset String × Nat × Nat :=
  if pdfOk || vidOk then (insert key completed, succ + 1, failed)
  else (completed, succ, failed + 1)

/-! ## Progress file loading (`load_progress`, epstein_downloader.py:779) -/

/-- JSON values, the possible results of `json.load`. Object fields model
the parsed dict (duplicate keys already resolved). -/
inductive JVal where
  | jnull
  | jbool (b : Bool)
  | jnum (n : Int)
  | jstr (s : String)
  | jarr (xs : List JVal)
  | jobj (fields : List (String × JVal))

/-- The state of the progress file: absent, or present with the result
of `json.load` on its content (`none` models a `json.JSONDecodeError`,
i.e. content that is not valid JSON). -/
inductive ProgressFile where
  | absent
  | present (parsed : Option JVal)

/-- Python values hashable into a set, as far as this program can
produce them. -/
inductive PyVal where
  | vstr (s : String)
  | vnum (n : Int)
  | vbool (b : Bool)
  | vnone
deriving DecidableEq

/-- `dict.get(k, default)` on a parsed JSON object. -/
def jlookup (fields : List (String × JVal)) (k : String) : Option JVal :=
  (fields.find? (fun f => f.1 = k)).map (fun f => f.2)

/-- Hash one element into a set, raising `TypeError` on unhashable
values (lists, dicts), as Python's `set()` does. -/
def hashElem : JVal → Except PyExn PyVal
  | .jnull => .ok .vnone
  | .jbool b => .ok (.vbool b)
  | .jnum n => .ok (.vnum n)
  | .jstr s => .ok (.vstr s)
  | .jarr _ => .error .typeError
  | .jobj _ => .error .typeError

/-- Python `set(v)`: iterate a list element-wise (raising `TypeError`
at the first unhashable element), a string character-wise, a dict over
its keys; anything else is not iterable (`TypeError`). -/
def pySet : JVal → Except PyExn (Finset PyVal)
  | .jarr xs => xs.foldlM (fun acc x => (hashElem x).map (fun v => insert v acc)) (∅ : Finset PyVal)
  | .jstr s => .ok (s.data.map (fun c => PyVal.vstr (String.singleton c))).toFinset
  | .jobj fields => .ok (fields.map (fun f => PyVal.vstr f.1)).toFinset
  | _ => .error .typeError

/-- `load_progress()`: return `set(data.get("completed", []))` for a
parsed JSON dict; the `except (json.JSONDecodeError, KeyError)` clause
turns an unparseable file into the empty set, but `data.get` on a
non-dict raises `AttributeError` and `set()` on a non-iterable or
unhashable-element value raises `TypeError`, neither of which is
caught. -/
def load_progress : ProgressFile → Except PyExn (Finset PyVal)
  | .absent => .ok ∅
  | .present none => .ok ∅
  | .present (some j) =>
    match j with
    | .jobj fields => pySet ((jlookup fields "completed").getD (.jarr []))
    | _ => .error .attrError

/-! ## Lemmas: filesystem primitives -/

theorem find?_pred_congr {α : Type} (f g : α → Bool) :
    ∀ l : List α, (∀ a ∈ l, f a = g a) → l.find? f = l.find? g
  | [], _ => rfl
  | a :: l, h => by
    rw [List.find?_cons, List.find?_cons, h a (List.mem_cons_self a l)]
    cases hg : g a
    · exact find?_pred_congr f g l (fun x hx => h x (List.mem_cons_of_mem a hx))
    · rfl

theorem findFile_filter_ne (l : List (FsPath × Nat)) (p q : FsPath) (h : q ≠ p) :
    (l.filter (fun e => e.1 ≠ p)).find? (fun e => e.1 = q) = l.find? (fun e => e.1 = q) := by
  rw [List.find?_filter]
  refine find?_pred_congr _ _ l (fun a _ => ?_)
  by_cases ha : a.1 = q
  · have hap : ¬ a.1 = p := fun hp => h (ha ▸ hp)
    simp [ha, hap, h]
  · simp [ha]

theorem findFile_filter_self (l : List (FsPath × Nat)) (p : FsPath) :
    (l.filter (fun e => e.1 ≠ p)).find? (fun e => e.1 = p) = none := by
  rw [List.find?_filter]
  refine List.find?_eq_none.mpr (fun x _ => ?_)
  by_cases hx : x.1 = p <;> simp [hx]

theorem size?_makedirs (fs : FS) (d q : FsPath) :
    (fs.makedirs d).size? q = fs.size? q := rfl

theorem size?_writeFile_self (fs : FS) (p : FsPath) (n : Nat) :
    (fs.writeFile p n).size? p = some n := by
  unfold FS.writeFile FS.size?
  rw [List.find?_append, findFile_filter_self]
  simp [List.find?]

theorem size?_writeFile_ne (fs : FS) (p q : FsPath) (n : Nat) (h : q ≠ p) :
    (fs.writeFile p n).size? q = fs.size? q := by
  unfold FS.writeFile FS.size?
  rw [List.find?_append, findFile_filter_ne _ _ _ h]
  have h2 : List.find? (fun e => e.1 = q) [(p, n)] = none := by
    simp [Ne.symm h]
  rw [h2]
  cases fs.files.find? (fun e => e.1 = q) <;> rfl

theorem size?_removeFile_self (fs : FS) (p : FsPath) :
    (fs.removeFile p).size? p = none := by
  unfold FS.removeFile FS.size?
  rw [findFile_filter_self]
  rfl

theorem size?_removeFile_ne (fs : FS) (p q : FsPath) (h : q ≠ p) :
    (fs.removeFile p).size? q = fs.size? q := by
  unfold FS.removeFile FS.size?
  rw [findFile_filter_ne _ _ _ h]

theorem size?_removeFile_none (fs : FS) (p q : FsPath) (h : fs.size? q = none) :
    (fs.removeFile p).size? q = none := by
  by_cases hq : q = p
  · subst hq; exact size?_removeFile_self fs q
  · rw [size?_removeFile_ne fs p q hq]; exact h

theorem size?_replaceFile_other (fs : FS) (src dst q : FsPath)
    (h1 : q ≠ src) (h2 : q ≠ dst) :
    (fs.replaceFile src dst).size? q = fs.size? q := by
  unfold FS.replaceFile
  match hs : fs.size? src with
  | some n => rw [size?_writeFile_ne _ _ _ _ h2, size?_removeFile_ne _ _ _ h1]
  | none => rfl

theorem size?_replaceFile_none (fs : FS) (src dst q : FsPath)
    (h2 : q ≠ dst) (h : fs.size? q = none) :
    (fs.replaceFile src dst).size? q = none := by
  unfold FS.replaceFile
  match hs : fs.size? src with
  | some n => rw [size?_writeFile_ne _ _ _ _ h2]; exact size?_removeFile_none _ _ _ h
  | none => exact h

theorem size?_replaceFile_dst (fs : FS) (src dst : FsPath) (n : Nat)
    (h : fs.size? src = some n) :
    (fs.replaceFile src dst).size? dst = some n := by
  unfold FS.replaceFile
  rw [h, size?_writeFile_self]

theorem dirs_writeFile (fs : FS) (p : FsPath) (n : Nat) :
    (fs.writeFile p n).dirs = fs.dirs := rfl

theorem dirs_removeFile (fs : FS) (p : FsPath) :
    (fs.removeFile p).dirs = fs.dirs := rfl

theorem dirs_replaceFile (fs : FS) (src dst : FsPath) :
    (fs.replaceFile src dst).dirs = fs.dirs := by
  unfold FS.replaceFile
  match hs : fs.size? src with
  | some n => rfl
  | none => rfl

theorem tmpPath_eq (p : FsPath) (h : p ≠ []) :
    tmpPath p = p.dropLast ++ [p.getLast h ++ ".tmp"] := by
  unfold tmpPath
  rw [List.getLast?_eq_getLast p h]

theorem tmpPath_ne (p : FsPath) (h : p ≠ []) : tmpPath p ≠ p := by
  intro heq
  rw [tmpPath_eq p h] at heq
  have hdrop : p.dropLast ++ [p.getLast h] = p := List.dropLast_append_getLast h
  have h2 : p.dropLast ++ [p.getLast h ++ ".tmp"] = p.dropLast ++ [p.getLast h] :=
    heq.trans hdrop.symm
  have hs : p.getLast h ++ ".tmp" = p.getLast h := by
    have := List.append_cancel_left h2
    simpa using this
  have hlen : (p.getLast h ++ ".tmp").length = (p.getLast h).length :=
    congrArg String.length hs
  rw [String.length_append] at hlen
  have h4 : (".tmp" : String).length = 4 := rfl
  rw [h4] at hlen
  omega

/-! ## Response classification -/

/-- A response on which `download_file` immediately returns `False`
without retrying: a 403/404 status, or a completed 2xx response whose
body is empty. -/
def terminalResp : Resp → Prop
  | .status c b => c = 403 ∨ c = 404 ∨ (200 ≤ c ∧ c < 300 ∧ b = 0)
  | .connErr => False
  | .abortMid _ => False

/-- A response that makes the attempt raise `requests.RequestException`
and hence be retried: a 4xx/5xx status (the range `raise_for_status`
raises on) other than 403/404, a connection-level error, or a mid-stream
abort. Statuses outside 400–599 do not raise: their bodies are streamed
like successes. -/
def retryableResp : Resp → Prop
  | .status c _ => (400 ≤ c ∧ c < 600) ∧ c ≠ 403 ∧ c ≠ 404
  | .connErr => True
  | .abortMid _ => True

/-- A response that does not yield a successful download: anything but a
completed status outside the 403/404 check and outside the 4xx/5xx range
`raise_for_status` raises on, with a non-empty body. -/
def notSuccess : Resp → Prop
  | .status c b => c = 403 ∨ c = 404 ∨ (400 ≤ c ∧ c < 600) ∨ b = 0
  | .connErr => True
  | .abortMid _ => True

/-- The status condition under which the streamed temp file is promoted
to the final path: past the 403/404 check and past `raise_for_status`
(which raises only for 400 ≤ status < 600 — a status ≥ 600 is also
streamed and promoted by the source). -/
def promoStatus (c : Nat) : Prop := ¬(c = 403 ∨ c = 404) ∧ ¬(400 ≤ c ∧ c < 600)

/-! ## Lemmas: the single attempt and the cleanup -/

theorem attemptOnce_status_43 {net : Net} {enc : String} {p : FsPath} {k : Nat} {fs : FS}
    {c b : Nat} (h : net enc k = .status c b) (h43 : c = 403 ∨ c = 404) :
    attemptOnce net enc p k fs = ⟨.ok false, fs, []⟩ := by
  unfold attemptOnce
  rw [h]
  simp [h43]

theorem attemptOnce_status_err {net : Net} {enc : String} {p : FsPath} {k : Nat} {fs : FS}
    {c b : Nat} (h : net enc k = .status c b) (h43 : ¬(c = 403 ∨ c = 404))
    (h4 : 400 ≤ c ∧ c < 600) :
    attemptOnce net enc p k fs = ⟨.error .reqExn, fs, []⟩ := by
  unfold attemptOnce
  rw [h]
  simp [h43, h4]

theorem attemptOnce_status_good {net : Net} {enc : String} {p : FsPath} {k : Nat} {fs : FS}
    {c b : Nat} (h : net enc k = .status c b) (h43 : ¬(c = 403 ∨ c = 404))
    (h4 : ¬(400 ≤ c ∧ c < 600)) (hb : 0 < b) :
    attemptOnce net enc p k fs =
      ⟨.ok true, (fs.writeFile (tmpPath p) b).replaceFile (tmpPath p) p,
        [fs.writeFile (tmpPath p) b,
         (fs.writeFile (tmpPath p) b).replaceFile (tmpPath p) p]⟩ := by
  unfold attemptOnce
  rw [h]
  simp [h43, h4, hb]

theorem attemptOnce_status_empty {net : Net} {enc : String} {p : FsPath} {k : Nat} {fs : FS}
    {c b : Nat} (h : net enc k = .status c b) (h43 : ¬(c = 403 ∨ c = 404))
    (h4 : ¬(400 ≤ c ∧ c < 600)) (hb : ¬ 0 < b) :
    attemptOnce net enc p k fs =
      ⟨.ok false, (fs.writeFile (tmpPath p) b).removeFile (tmpPath p),
        [fs.writeFile (tmpPath p) b,
         (fs.writeFile (tmpPath p) b).removeFile (tmpPath p)]⟩ := by
  unfold attemptOnce
  rw [h]
  simp [h43, h4, hb]

theorem attemptOnce_conn {net : Net} {enc : String} {p : FsPath} {k : Nat} {fs : FS}
    (h : net enc k = .connErr) :
    attemptOnce net enc p k fs = ⟨.error .reqExn, fs, []⟩ := by
  unfold attemptOnce
  rw [h]

theorem attemptOnce_abort {net : Net} {enc : String} {p : FsPath} {k : Nat} {fs : FS}
    {w : Nat} (h : net enc k = .abortMid w) :
    attemptOnce net enc p k fs =
      ⟨.error .reqExn, fs.writeFile (tmpPath p) w, [fs.writeFile (tmpPath p) w]⟩ := by
  unfold attemptOnce
  rw [h]

theorem cleanupTemp_none (fs : FS) (p q : FsPath) (h : fs.size? q = none) :
    (cleanupTemp fs p).1.size? q = none := by
  dsimp [cleanupTemp]
  split_ifs <;>
    first
      | exact size?_removeFile_none _ _ _ (size?_removeFile_none _ _ _ h)
      | exact size?_removeFile_none _ _ _ h
      | exact h

theorem cleanupTemp_p (fs : FS) (p : FsPath) :
    (cleanupTemp fs p).1.size? p = none := by
  dsimp [cleanupTemp]
  split_ifs with h1 h2 h3
  · exact size?_removeFile_self _ _
  · rwa [Option.not_isSome_iff_eq_none] at h2
  · exact size?_removeFile_self _ _
  · rwa [Option.not_isSome_iff_eq_none] at h3

/-! ## Lemmas: the retry loop -/

theorem fetchLoop_succ_ok {net : Net} {enc : String} {p : FsPath} {k fuel : Nat}
    {fs fs' : FS} {b : Bool} {tr : List FS}
    (ha : attemptOnce net enc p k fs = ⟨.ok b, fs', tr⟩) :
    fetchLoop net enc p (fuel + 1) k fs = .ok ⟨b, fs', [enc], tr⟩ := by
  simp only [fetchLoop]
  rw [ha]

theorem fetchLoop_succ_err {net : Net} {enc : String} {p : FsPath} {k fuel : Nat}
    {fs fs' : FS} {tr : List FS}
    (ha : attemptOnce net enc p k fs = ⟨.error .reqExn, fs', tr⟩) :
    fetchLoop net enc p (fuel + 1) k fs =
      match fetchLoop net enc p fuel (k + 1) (cleanupTemp fs' p).1 with
      | .ok out => .ok ⟨out.ok, out.fs, enc :: out.reqs, tr ++ (cleanupTemp fs' p).2 ++ out.trace⟩
      | .error e2 => .error e2 := by
  simp only [fetchLoop]
  rw [ha]
  simp

/-- Master lemma for the retry loop: it always terminates normally (the
only exceptions raised inside the `try:` block are
`requests.RequestException`s, all caught), every URL it requests is the
encoded URL, it creates no file at any path other than the final path,
and on failure it creates no file anywhere. -/
theorem fetchLoop_spec (net : Net) (enc : String) (p : FsPath) :
    ∀ fuel k fs, ∃ out, fetchLoop net enc p fuel k fs = .ok out ∧
      (∀ u ∈ out.reqs, u = enc) ∧
      (∀ q, q ≠ p → fs.size? q = none → out.fs.size? q = none) ∧
      (out.ok = false → ∀ q, fs.size? q = none → out.fs.size? q = none) := by
  intro fuel
  induction fuel with
  | zero =>
    intro k fs
    exact ⟨⟨false, fs, [], []⟩, rfl, by simp, fun q _ h => h, fun _ q h => h⟩
  | succ fuel ih =>
    intro k fs
    have hstep :
        ∀ fs' tr, attemptOnce net enc p k fs = ⟨.error .reqExn, fs', tr⟩ →
          (∀ q, fs.size? q = none → fs'.size? q = none ∨ q = tmpPath p) →
          ∃ out, fetchLoop net enc p (fuel + 1) k fs = .ok out ∧
            (∀ u ∈ out.reqs, u = enc) ∧
            (∀ q, q ≠ p → fs.size? q = none → out.fs.size? q = none) ∧
            (out.ok = false → ∀ q, fs.size? q = none → out.fs.size? q = none) := by
      intro fs' tr ha hq
      obtain ⟨out, hout, hreqs, heff, hfail⟩ := ih (k + 1) (cleanupTemp fs' p).1
      refine ⟨⟨out.ok, out.fs, enc :: out.reqs, tr ++ (cleanupTemp fs' p).2 ++ out.trace⟩,
        ?_, ?_, ?_, ?_⟩
      · rw [fetchLoop_succ_err ha, hout]
      · intro u hu
        rcases List.mem_cons.mp hu with h | h
        · exact h
        · exact hreqs u h
      · intro q hqp h
        have h' : (cleanupTemp fs' p).1.size? q = none := by
          rcases hq q h with h2 | h2
          · exact cleanupTemp_none _ _ _ h2
          · rw [h2]
            dsimp [cleanupTemp]
            split_ifs with h1 h3 h4
            · exact size?_removeFile_none _ _ _ (size?_removeFile_self _ _)
            · exact size?_removeFile_self _ _
            · exact size?_removeFile_none _ _ _
                ((Option.not_isSome_iff_eq_none).mp h1)
            · exact (Option.not_isSome_iff_eq_none).mp h1
        exact heff q hqp h'
      · intro hok q h
        have h' : (cleanupTemp fs' p).1.size? q = none := by
          rcases hq q h with h2 | h2
          · exact cleanupTemp_none _ _ _ h2
          · rw [h2]
            dsimp [cleanupTemp]
            split_ifs with h1 h3 h4
            · exact size?_removeFile_none _ _ _ (size?_removeFile_self _ _)
            · exact size?_removeFile_self _ _
            · exact size?_removeFile_none _ _ _
                ((Option.not_isSome_iff_eq_none).mp h1)
            · exact (Option.not_isSome_iff_eq_none).mp h1
        exact hfail hok q h'
    rcases hr : net enc k with ⟨c, b⟩ | _ | w
    · by_cases h43 : c = 403 ∨ c = 404
      · refine ⟨⟨false, fs, [enc], []⟩, ?_, ?_, fun q _ h => h, fun _ q h => h⟩
        · rw [fetchLoop_succ_ok (attemptOnce_status_43 hr h43)]
        · intro u hu
          simpa using hu
      · by_cases h4 : 400 ≤ c ∧ c < 600
        · exact hstep fs [] (attemptOnce_status_err hr h43 h4) (fun q h => Or.inl h)
        · by_cases hb : 0 < b
          · refine ⟨⟨true, (fs.writeFile (tmpPath p) b).replaceFile (tmpPath p) p,
              [enc],
              [fs.writeFile (tmpPath p) b,
               (fs.writeFile (tmpPath p) b).replaceFile (tmpPath p) p]⟩, ?_, ?_, ?_, ?_⟩
            · rw [fetchLoop_succ_ok (attemptOnce_status_good hr h43 h4 hb)]
            · intro u hu
              simpa using hu
            · intro q hqp h
              by_cases hqt : q = tmpPath p
              · subst hqt
                unfold FS.replaceFile
                rw [size?_writeFile_self]
                rw [size?_writeFile_ne _ _ _ _ hqp]
                exact size?_removeFile_self _ _
              · rw [size?_replaceFile_other _ _ _ _ hqt hqp,
                  size?_writeFile_ne _ _ _ _ hqt]
                exact h
            · intro hok
              simp at hok
          · refine ⟨⟨false, (fs.writeFile (tmpPath p) b).removeFile (tmpPath p),
              [enc],
              [fs.writeFile (tmpPath p) b,
               (fs.writeFile (tmpPath p) b).removeFile (tmpPath p)]⟩, ?_, ?_, ?_, ?_⟩
            · rw [fetchLoop_succ_ok (attemptOnce_status_empty hr h43 h4 hb)]
            · intro u hu
              simpa using hu
            · intro q _ h
              by_cases hqt : q = tmpPath p
              · subst hqt
                exact size?_removeFile_self _ _
              · rw [size?_removeFile_ne _ _ _ hqt, size?_writeFile_ne _ _ _ _ hqt]
                exact h
            · intro _ q h
              by_cases hqt : q = tmpPath p
              · subst hqt
                exact size?_removeFile_self _ _
              · rw [size?_removeFile_ne _ _ _ hqt, size?_writeFile_ne _ _ _ _ hqt]
                exact h
    · exact hstep fs [] (attemptOnce_conn hr) (fun q h => Or.inl h)
    · refine hstep (fs.writeFile (tmpPath p) w) _ (attemptOnce_abort hr) ?_
      intro q h
      by_cases hqt : q = tmpPath p
      · exact Or.inr hqt
      · exact Or.inl (by rw [size?_writeFile_ne _ _ _ _ hqt]; exact h)

/-! ## Lemmas: `download_file` -/

theorem download_file_exists {net : Net} {url : String} {p : FsPath} {fs : FS}
    (h : fs.existsNonzero p = true) :
    download_file net url p fs = .ok ⟨true, fs, [], []⟩ := by
  unfold download_file
  rw [h]
  rfl

/-- `download_file` always returns a boolean result (the `except` clause
catches every exception the attempt can raise), all its requests go to
the space-encoded URL, it creates no file at any path other than the
final path, and when it fails it creates no file at all. -/
theorem download_file_spec (net : Net) (url : String) (p : FsPath) (fs : FS) :
    ∃ out, download_file net url p fs = .ok out ∧
      (∀ u ∈ out.reqs, u = encodeSpaces url) ∧
      (∀ q, q ≠ p → fs.size? q = none → out.fs.size? q = none) ∧
      (out.ok = false → ∀ q, fs.size? q = none → out.fs.size? q = none) := by
  by_cases h : fs.existsNonzero p = true
  · exact ⟨⟨true, fs, [], []⟩, download_file_exists h, by simp,
      fun q _ hq => hq, fun hok => by simp at hok⟩
  · obtain ⟨out, hout, hreqs, heff, hfail⟩ :=
      fetchLoop_spec net (encodeSpaces url) p MAX_RETRIES 0 (fs.makedirs p.dropLast)
    refine ⟨{ out with trace := fs.makedirs p.dropLast :: out.trace }, ?_, hreqs, ?_, ?_⟩
    · unfold download_file
      rw [Bool.not_eq_true] at h
      rw [h]
      simp only [Bool.false_eq_true, if_false]
      rw [hout]
    · intro q hqp hq
      exact heff q hqp (by rw [size?_makedirs]; exact hq)
    · intro hok q hq
      exact hfail hok q (by rw [size?_makedirs]; exact hq)

theorem fetchLoop_fail (net : Net) (enc : String) (p : FsPath)
    (hns : ∀ j, notSuccess (net enc j)) :
    ∀ fuel k fs, ∃ out, fetchLoop net enc p fuel k fs = .ok out ∧ out.ok = false := by
  intro fuel
  induction fuel with
  | zero => exact fun k fs => ⟨⟨false, fs, [], []⟩, rfl, rfl⟩
  | succ fuel ih =>
    intro k fs
    have hstep : ∀ fs' tr, attemptOnce net enc p k fs = ⟨.error .reqExn, fs', tr⟩ →
        ∃ out, fetchLoop net enc p (fuel + 1) k fs = .ok out ∧ out.ok = false := by
      intro fs' tr ha
      obtain ⟨out, hout, hok⟩ := ih (k + 1) (cleanupTemp fs' p).1
      refine ⟨⟨out.ok, out.fs, enc :: out.reqs, tr ++ (cleanupTemp fs' p).2 ++ out.trace⟩, ?_, hok⟩
      rw [fetchLoop_succ_err ha, hout]
    rcases hr : net enc k with ⟨c, b⟩ | _ | w
    · by_cases h43 : c = 403 ∨ c = 404
      · exact ⟨⟨false, fs, [enc], []⟩,
          by rw [fetchLoop_succ_ok (attemptOnce_status_43 hr h43)], rfl⟩
      · by_cases h4 : 400 ≤ c ∧ c < 600
        · exact hstep fs [] (attemptOnce_status_err hr h43 h4)
        · have hb : ¬ 0 < b := by
            have := hns k
            rw [hr] at this
            rcases this with h | h | h | h
            · exact absurd (Or.inl h) h43
            · exact absurd (Or.inr h) h43
            · exact absurd h h4
            · omega
          exact ⟨_, fetchLoop_succ_ok (attemptOnce_status_empty hr h43 h4 hb), rfl⟩
    · exact hstep fs [] (attemptOnce_conn hr)
    · exact hstep (fs.writeFile (tmpPath p) w) _ (attemptOnce_abort hr)

/-- When the transport never yields a successful response for the
(encoded) URL and no non-empty file pre-exists at the target, the fetch
returns `False` and creates no file anywhere. -/
theorem download_file_fail (net : Net) (url : String) (p : FsPath) (fs : FS)
    (hns : ∀ j, notSuccess (net (encodeSpaces url) j))
    (hne : fs.existsNonzero p = false) :
    ∃ out, download_file net url p fs = .ok out ∧ out.ok = false ∧
      (∀ u ∈ out.reqs, u = encodeSpaces url) ∧
      (∀ q, fs.size? q = none → out.fs.size? q = none) := by
  obtain ⟨out, hout, hreqs, _, hfailnone⟩ := download_file_spec net url p fs
  obtain ⟨out2, hout2, hok2⟩ :=
    fetchLoop_fail net (encodeSpaces url) p hns MAX_RETRIES 0 (fs.makedirs p.dropLast)
  have hdf2 : download_file net url p fs =
      .ok { out2 with trace := fs.makedirs p.dropLast :: out2.trace } := by
    unfold download_file
    rw [hne]
    simp only [Bool.false_eq_true, if_false]
    rw [hout2]
  have heq : out = { out2 with trace := fs.makedirs p.dropLast :: out2.trace } := by
    rw [hout] at hdf2
    exact Except.ok.inj hdf2
  have hok : out.ok = false := by rw [heq]; exact hok2
  exact ⟨out, hout, hok, hreqs, hfailnone hok⟩

/-- A successful fetch whose very first attempt completes with a
promotable status and a non-empty body: one request, the body promoted
to the final path, the temp sibling gone, and every other path
untouched. -/
theorem download_file_success_first (net : Net) (url : String) (p : FsPath) (fs : FS)
    (hne : fs.existsNonzero p = false) (hp : p ≠ [])
    {c b : Nat} (h0 : net (encodeSpaces url) 0 = .status c b)
    (h43 : ¬(c = 403 ∨ c = 404)) (h4 : ¬(400 ≤ c ∧ c < 600)) (hb : 0 < b) :
    ∃ out, download_file net url p fs = .ok out ∧ out.ok = true ∧
      out.reqs = [encodeSpaces url] ∧ out.fs.size? p = some b ∧
      (∀ q, q ≠ p → q ≠ tmpPath p → out.fs.size? q = fs.size? q) ∧
      out.fs.size? (tmpPath p) = none := by
  have hstep := @fetchLoop_succ_ok net (encodeSpaces url) p 0 2 (fs.makedirs p.dropLast) _ _ _
    (@attemptOnce_status_good net (encodeSpaces url) p 0 (fs.makedirs p.dropLast) c b h0 h43 h4 hb)
  have htp := tmpPath_ne p hp
  set fs1 := fs.makedirs p.dropLast with hfs1
  set fs2 := (fs1.writeFile (tmpPath p) b).replaceFile (tmpPath p) p with hfs2
  refine ⟨⟨true, fs2, [encodeSpaces url],
    fs1 :: [fs1.writeFile (tmpPath p) b, fs2]⟩, ?_, rfl, rfl, ?_, ?_, ?_⟩
  · unfold download_file
    rw [hne]
    simp only [Bool.false_eq_true, if_false]
    have h3 : MAX_RETRIES = 2 + 1 := rfl
    rw [h3, hstep]
  · rw [hfs2]
    exact size?_replaceFile_dst _ _ _ _ (size?_writeFile_self _ _ _)
  · intro q hqp hqt
    rw [hfs2, size?_replaceFile_other _ _ _ _ hqt hqp,
      size?_writeFile_ne _ _ _ _ hqt, hfs1, size?_makedirs]
  · rw [hfs2]
    unfold FS.replaceFile
    rw [size?_writeFile_self]
    rw [size?_writeFile_ne _ _ _ _ htp]
    exact size?_removeFile_self _ _

/-! ## Lemmas: terminal responses and retry counting -/

theorem not_403_404_of_2xx {c : Nat} (h2 : 200 ≤ c) (h3 : c < 300) :
    ¬(c = 403 ∨ c = 404) := by
  rintro (rfl | rfl) <;> omega

theorem fetchLoop_terminal_step {net : Net} {enc : String} {p : FsPath} {k fuel : Nat}
    {fs : FS} (hterm : terminalResp (net enc k)) :
    ∃ out, fetchLoop net enc p (fuel + 1) k fs = .ok out ∧ out.ok = false ∧
      out.reqs = [enc] := by
  rcases hr : net enc k with ⟨c, b⟩ | _ | w
  · rw [hr] at hterm
    rcases hterm with h | h | h
    · exact ⟨_, fetchLoop_succ_ok (attemptOnce_status_43 hr (Or.inl h)), rfl, rfl⟩
    · exact ⟨_, fetchLoop_succ_ok (attemptOnce_status_43 hr (Or.inr h)), rfl, rfl⟩
    · obtain ⟨h2, h3, hb0⟩ := h
      have h43 : ¬(c = 403 ∨ c = 404) := not_403_404_of_2xx h2 h3
      have h4 : ¬(400 ≤ c ∧ c < 600) := by omega
      have hb : ¬ 0 < b := by omega
      exact ⟨_, fetchLoop_succ_ok (attemptOnce_status_empty hr h43 h4 hb), rfl, rfl⟩
  · rw [hr] at hterm
    exact hterm.elim
  · rw [hr] at hterm
    exact hterm.elim

theorem fetchLoop_retry_one {net : Net} {enc : String} {p : FsPath} {k fuel : Nat}
    {fs : FS} (hretry : retryableResp (net enc k)) :
    ∃ fs', ∀ out2, fetchLoop net enc p fuel (k + 1) fs' = .ok out2 →
      ∃ tr, fetchLoop net enc p (fuel + 1) k fs = .ok ⟨out2.ok, out2.fs, enc :: out2.reqs, tr⟩ := by
  rcases hr : net enc k with ⟨c, b⟩ | _ | w
  · rw [hr] at hretry
    obtain ⟨h4, h403, h404⟩ := hretry
    have h43 : ¬(c = 403 ∨ c = 404) := by
      rintro (rfl | rfl) <;> simp_all
    refine ⟨(cleanupTemp fs p).1, fun out2 hout2 => ?_⟩
    refine ⟨[] ++ (cleanupTemp fs p).2 ++ out2.trace, ?_⟩
    rw [fetchLoop_succ_err (attemptOnce_status_err hr h43 h4), hout2]
  · refine ⟨(cleanupTemp fs p).1, fun out2 hout2 => ?_⟩
    refine ⟨[] ++ (cleanupTemp fs p).2 ++ out2.trace, ?_⟩
    rw [fetchLoop_succ_err (attemptOnce_conn hr), hout2]
  · refine ⟨(cleanupTemp (fs.writeFile (tmpPath p) w) p).1, fun out2 hout2 => ?_⟩
    refine ⟨[fs.writeFile (tmpPath p) w] ++ (cleanupTemp (fs.writeFile (tmpPath p) w) p).2
      ++ out2.trace, ?_⟩
    rw [fetchLoop_succ_err (attemptOnce_abort hr), hout2]

theorem fetchLoop_terminal_at (net : Net) (enc : String) (p : FsPath) :
    ∀ j fuel k fs, j < fuel →
      (∀ i, i < j → retryableResp (net enc (k + i))) →
      terminalResp (net enc (k + j)) →
      ∃ out, fetchLoop net enc p fuel k fs = .ok out ∧ out.ok = false ∧
        out.reqs = List.replicate (j + 1) enc := by
  intro j
  induction j with
  | zero =>
    intro fuel k fs hlt _ hterm
    obtain ⟨fuel', rfl⟩ : ∃ f', fuel = f' + 1 := ⟨fuel - 1, by omega⟩
    rw [Nat.add_zero] at hterm
    obtain ⟨out, hout, hok, hreqs⟩ := fetchLoop_terminal_step hterm
    exact ⟨out, hout, hok, by rw [hreqs]; rfl⟩
  | succ j ih =>
    intro fuel k fs hlt hretry hterm
    obtain ⟨fuel', rfl⟩ : ∃ f', fuel = f' + 1 := ⟨fuel - 1, by omega⟩
    have h0 : retryableResp (net enc k) := by
      have := hretry 0 (by omega)
      rwa [Nat.add_zero] at this
    obtain ⟨fs', hstep⟩ := fetchLoop_retry_one h0
    obtain ⟨out2, hout2, hok2, hreqs2⟩ := ih fuel' (k + 1) fs' (by omega)
      (fun i hi => by
        have := hretry (i + 1) (by omega)
        rwa [show k + (i + 1) = k + 1 + i by omega] at this)
      (by rwa [show k + (j + 1) = k + 1 + j by omega] at hterm)
    obtain ⟨tr, hfin⟩ := hstep out2 hout2
    refine ⟨_, hfin, hok2, ?_⟩
    rw [hreqs2]
    rfl

theorem fetchLoop_all_retry (net : Net) (enc : String) (p : FsPath) :
    ∀ fuel k fs, (∀ i, i < fuel → retryableResp (net enc (k + i))) →
      ∃ out, fetchLoop net enc p fuel k fs = .ok out ∧ out.ok = false ∧
        out.reqs = List.replicate fuel enc := by
  intro fuel
  induction fuel with
  | zero => exact fun k fs _ => ⟨⟨false, fs, [], []⟩, rfl, rfl, rfl⟩
  | succ fuel ih =>
    intro k fs hretry
    have h0 : retryableResp (net enc k) := by
      have := hretry 0 (by omega)
      rwa [Nat.add_zero] at this
    obtain ⟨fs', hstep⟩ := fetchLoop_retry_one h0
    obtain ⟨out2, hout2, hok2, hreqs2⟩ := ih (k + 1) fs'
      (fun i hi => by
        have := hretry (i + 1) (by omega)
        rwa [show k + (i + 1) = k + 1 + i by omega] at this)
    obtain ⟨tr, hfin⟩ := hstep out2 hout2
    refine ⟨_, hfin, hok2, ?_⟩
    rw [hreqs2]
    rfl

/-- A 403/404 or empty-2xx response at attempt `j` (after `j` retryable
responses) makes the fetch return `False` right there: exactly `j + 1`
requests, no further retries. -/
theorem download_file_terminal_at (net : Net) (url : String) (p : FsPath) (fs : FS)
    (hne : fs.existsNonzero p = false) {j : Nat} (hj : j < MAX_RETRIES)
    (hretry : ∀ i, i < j → retryableResp (net (encodeSpaces url) i))
    (hterm : terminalResp (net (encodeSpaces url) j)) :
    ∃ out, download_file net url p fs = .ok out ∧ out.ok = false ∧
      out.reqs = List.replicate (j + 1) (encodeSpaces url) := by
  obtain ⟨out, hout, hok, hreqs⟩ :=
    fetchLoop_terminal_at net (encodeSpaces url) p j MAX_RETRIES 0 (fs.makedirs p.dropLast) hj
      (fun i hi => by simpa using hretry i hi) (by simpa using hterm)
  refine ⟨{ out with trace := fs.makedirs p.dropLast :: out.trace }, ?_, hok, hreqs⟩
  unfold download_file
  rw [hne]
  simp only [Bool.false_eq_true, if_false]
  rw [hout]

/-- When all `MAX_RETRIES` responses are retryable failures, the fetch
issues exactly `MAX_RETRIES` requests and returns `False`. -/
theorem download_file_all_retry (net : Net) (url : String) (p : FsPath) (fs : FS)
    (hne : fs.existsNonzero p = false)
    (hretry : ∀ i, i < MAX_RETRIES → retryableResp (net (encodeSpaces url) i)) :
    ∃ out, download_file net url p fs = .ok out ∧ out.ok = false ∧
      out.reqs = List.replicate MAX_RETRIES (encodeSpaces url) := by
  obtain ⟨out, hout, hok, hreqs⟩ :=
    fetchLoop_all_retry net (encodeSpaces url) p MAX_RETRIES 0 (fs.makedirs p.dropLast)
      (fun i hi => by simpa using hretry i hi)
  refine ⟨{ out with trace := fs.makedirs p.dropLast :: out.trace }, ?_, hok, hreqs⟩
  unfold download_file
  rw [hne]
  simp only [Bool.false_eq_true, if_false]
  rw [hout]

/-! ## Lemmas: atomic visibility at the final path -/

/-- Invariant of one filesystem state: any file visible at the final
path `p` is non-empty, and is either the file already there at call time
(of size `init`) or the complete body of a response the transport
completed with a status the fetch promotes. -/
def goodAt (net : Net) (enc : String) (p : FsPath) (init : Option Nat) (fs : FS) : Prop :=
  ∀ n, fs.size? p = some n →
    0 < n ∧ (init = some n ∨ ∃ k c, promoStatus c ∧ net enc k = .status c n)

theorem goodAt_removeFile {net : Net} {enc : String} {p : FsPath} {init : Option Nat}
    {fs : FS} (hg : goodAt net enc p init fs) (x : FsPath) :
    goodAt net enc p init (fs.removeFile x) := by
  intro n hn
  by_cases hxp : p = x
  · subst hxp
    rw [size?_removeFile_self] at hn
    cases hn
  · rw [size?_removeFile_ne _ _ _ hxp] at hn
    exact hg n hn

theorem goodAt_write_tmp {net : Net} {enc : String} {p : FsPath} {init : Option Nat}
    {fs : FS} (hp : p ≠ []) (hg : goodAt net enc p init fs) (w : Nat) :
    goodAt net enc p init (fs.writeFile (tmpPath p) w) := by
  intro n hn
  rw [size?_writeFile_ne _ _ _ _ (Ne.symm (tmpPath_ne p hp))] at hn
  exact hg n hn

theorem goodAt_cleanup {net : Net} {enc : String} {p : FsPath} {init : Option Nat}
    {fs : FS} (hg : goodAt net enc p init fs) :
    goodAt net enc p init (cleanupTemp fs p).1 := by
  dsimp [cleanupTemp]
  split_ifs <;>
    first
      | exact goodAt_removeFile (goodAt_removeFile hg _) _
      | exact goodAt_removeFile hg _
      | exact hg

theorem goodAt_cleanup_snaps {net : Net} {enc : String} {p : FsPath} {init : Option Nat}
    {fs : FS} (hg : goodAt net enc p init fs) :
    ∀ fs' ∈ (cleanupTemp fs p).2, goodAt net enc p init fs' := by
  intro fs' hf
  dsimp [cleanupTemp] at hf
  simp only [List.mem_cons, List.not_mem_nil, or_false] at hf
  rcases hf with rfl | rfl
  · split_ifs
    · exact goodAt_removeFile hg _
    · exact hg
  · split_ifs <;>
      first
        | exact goodAt_removeFile (goodAt_removeFile hg _) _
        | exact goodAt_removeFile hg _
        | exact hg

theorem fetchLoop_goodAt (net : Net) (enc : String) (p : FsPath) (init : Option Nat)
    (hp : p ≠ []) :
    ∀ fuel k fs, goodAt net enc p init fs →
      ∀ out, fetchLoop net enc p fuel k fs = .ok out →
        goodAt net enc p init out.fs ∧ ∀ fs' ∈ out.trace, goodAt net enc p init fs' := by
  intro fuel
  induction fuel with
  | zero =>
    intro k fs hg out hout
    simp only [fetchLoop] at hout
    obtain rfl := Except.ok.inj hout
    exact ⟨hg, by simp⟩
  | succ fuel ih =>
    intro k fs hg out hout
    have hstep : ∀ fs0 tr0, attemptOnce net enc p k fs = ⟨.error .reqExn, fs0, tr0⟩ →
        goodAt net enc p init fs0 → (∀ fs' ∈ tr0, goodAt net enc p init fs') →
        goodAt net enc p init out.fs ∧ ∀ fs' ∈ out.trace, goodAt net enc p init fs' := by
      intro fs0 tr0 ha hg0 htr0
      rw [fetchLoop_succ_err ha] at hout
      cases hrec : fetchLoop net enc p fuel (k + 1) (cleanupTemp fs0 p).1 with
      | ok out2 =>
        rw [hrec] at hout
        obtain ⟨hgood2, htr2⟩ := ih (k + 1) _ (goodAt_cleanup hg0) out2 hrec
        obtain rfl := Except.ok.inj hout
        refine ⟨hgood2, ?_⟩
        intro fs' hf
        rcases List.mem_append.mp hf with hf | hf
        · rcases List.mem_append.mp hf with hf | hf
          · exact htr0 fs' hf
          · exact goodAt_cleanup_snaps hg0 fs' hf
        · exact htr2 fs' hf
      | error e =>
        rw [hrec] at hout
        cases hout
    rcases hr : net enc k with ⟨c, b⟩ | _ | w
    · by_cases h43 : c = 403 ∨ c = 404
      · rw [fetchLoop_succ_ok (attemptOnce_status_43 hr h43)] at hout
        obtain rfl := Except.ok.inj hout
        exact ⟨hg, by simp⟩
      · by_cases h4 : 400 ≤ c ∧ c < 600
        · exact hstep fs [] (attemptOnce_status_err hr h43 h4) hg (by simp)
        · by_cases hb : 0 < b
          · rw [fetchLoop_succ_ok (attemptOnce_status_good hr h43 h4 hb)] at hout
            obtain rfl := Except.ok.inj hout
            have hgw := goodAt_write_tmp hp hg b
            have hg2 : goodAt net enc p init
                ((fs.writeFile (tmpPath p) b).replaceFile (tmpPath p) p) := by
              intro n hn
              rw [size?_replaceFile_dst _ _ _ b (size?_writeFile_self _ _ _)] at hn
              obtain rfl : b = n := Option.some.inj hn
              refine ⟨hb, Or.inr ⟨k, c, ⟨h43, h4⟩, hr⟩⟩
            refine ⟨hg2, ?_⟩
            intro fs' hf
            simp only [List.mem_cons, List.not_mem_nil, or_false] at hf
            rcases hf with rfl | rfl
            · exact hgw
            · exact hg2
          · rw [fetchLoop_succ_ok (attemptOnce_status_empty hr h43 h4 hb)] at hout
            obtain rfl := Except.ok.inj hout
            have hgw := goodAt_write_tmp hp hg b
            refine ⟨goodAt_removeFile hgw _, ?_⟩
            intro fs' hf
            simp only [List.mem_cons, List.not_mem_nil, or_false] at hf
            rcases hf with rfl | rfl
            · exact hgw
            · exact goodAt_removeFile hgw _
    · exact hstep fs [] (attemptOnce_conn hr) hg (by simp)
    · refine hstep (fs.writeFile (tmpPath p) w) _ (attemptOnce_abort hr)
        (goodAt_write_tmp hp hg w) ?_
      intro fs' hf
      simp only [List.mem_cons, List.not_mem_nil, or_false] at hf
      obtain rfl := hf
      exact goodAt_write_tmp hp hg w

/-- Atomic visibility of `download_file`: provided the final path does
not already hold an empty file, then at every intermediate state of the
call and at its end, any file visible at the final path is non-empty
and is either the pre-existing file or a fully-streamed response body
promoted from the temp sibling. -/
theorem download_file_goodAt (net : Net) (url : String) (p : FsPath) (fs : FS)
    (hp : p ≠ []) (hinit : fs.size? p ≠ some 0) :
    ∀ out, download_file net url p fs = .ok out →
      goodAt net (encodeSpaces url) p (fs.size? p) out.fs ∧
      ∀ fs' ∈ out.trace, goodAt net (encodeSpaces url) p (fs.size? p) fs' := by
  intro out hout
  have hg0 : goodAt net (encodeSpaces url) p (fs.size? p) fs := by
    intro n hn
    refine ⟨?_, Or.inl hn⟩
    rcases Nat.eq_zero_or_pos n with rfl | hpos
    · exact absurd hn hinit
    · exact hpos
  by_cases h : fs.existsNonzero p = true
  · rw [download_file_exists h] at hout
    obtain rfl := Except.ok.inj hout
    exact ⟨hg0, by simp⟩
  · unfold download_file at hout
    rw [Bool.not_eq_true] at h
    rw [h] at hout
    simp only [Bool.false_eq_true, if_false] at hout
    have hg1 : goodAt net (encodeSpaces url) p (fs.size? p) (fs.makedirs p.dropLast) := by
      intro n hn
      rw [size?_makedirs] at hn
      exact hg0 n hn
    cases hrec : fetchLoop net (encodeSpaces url) p MAX_RETRIES 0 (fs.makedirs p.dropLast) with
    | ok out2 =>
      rw [hrec] at hout
      obtain ⟨hgood2, htr2⟩ :=
        fetchLoop_goodAt net (encodeSpaces url) p (fs.size? p) hp MAX_RETRIES 0 _ hg1 out2 hrec
      obtain rfl := Except.ok.inj hout
      refine ⟨hgood2, ?_⟩
      intro fs' hf
      rcases List.mem_cons.mp hf with rfl | hf
      · exact hg1
      · exact htr2 fs' hf
    | error e =>
      rw [hrec] at hout
      cases hout

/-! ## Lemmas: companion probing and folder removal -/

theorem existsNonzero_of_none {fs : FS} {p : FsPath} (h : fs.size? p = none) :
    fs.existsNonzero p = false := by
  unfold FS.existsNonzero
  rw [h]

theorem existsNonzero_of_some {fs : FS} {p : FsPath} {n : Nat}
    (h : fs.size? p = some n) (hn : 0 < n) : fs.existsNonzero p = true := by
  unfold FS.existsNonzero
  rw [h]
  simpa using hn

theorem string_append_right_cancel {a e f : String} (h : a ++ e = a ++ f) : e = f := by
  apply String.ext
  have := congrArg String.data h
  rw [String.data_append, String.data_append] at this
  exact List.append_cancel_left this

theorem ext_path_ne {fid e f : String} (h : e ≠ f) (folder : FsPath) :
    folder ++ [fid ++ "." ++ e] ≠ folder ++ [fid ++ "." ++ f] := by
  intro heq
  have h1 : [fid ++ "." ++ e] = [fid ++ "." ++ f] := List.append_cancel_left heq
  have h2 : fid ++ "." ++ e = fid ++ "." ++ f := by simpa using h1
  exact h (string_append_right_cancel h2)

theorem companionLoop_fail (net : Net) (v b : String) (fe : Option String)
    (folder : FsPath) (fid : String) :
    ∀ (es : List String) (fs : FS),
      (∀ u j, u ∈ companionAttemptURLsAux v b fe es → notSuccess (net (encodeSpaces u) j)) →
      (∀ e ∈ es, fs.size? (folder ++ [fid ++ "." ++ e]) = none) →
      ∃ c, companionLoop net v b fe folder fid es fs = .ok c ∧ c.ok = false ∧
        (∀ q, fs.size? q = none → c.fs.size? q = none) := by
  intro es
  induction es with
  | nil => exact fun fs _ _ => ⟨⟨false, none, fs, [], []⟩, rfl, rfl, fun q h => h⟩
  | cons e rest ih =>
    intro fs hfail hpaths
    have hmem : (if fe = some e then v else b ++ "." ++ e) ∈
        companionAttemptURLsAux v b fe (e :: rest) := by
      simp [companionAttemptURLsAux]
    obtain ⟨o, ho, hok, _, heff⟩ := download_file_fail net
      (if fe = some e then v else b ++ "." ++ e) (folder ++ [fid ++ "." ++ e]) fs
      (fun j => hfail _ j hmem)
      (existsNonzero_of_none (hpaths e (List.mem_cons_self e rest)))
    obtain ⟨c, hc, hcok, hceff⟩ := ih o.fs
      (fun u j hu => hfail u j (by simp [companionAttemptURLsAux] at hu ⊢; exact Or.inr hu))
      (fun e' he' => heff _ (hpaths e' (List.mem_cons_of_mem e he')))
    refine ⟨⟨c.ok, c.vidPath, c.fs, o.reqs ++ c.reqs,
      (if fe = some e then v else b ++ "." ++ e, folder ++ [fid ++ "." ++ e]) :: c.tried⟩,
      ?_, hcok, fun q hq => hceff q (heff q hq)⟩
    simp only [companionLoop, ho]
    rw [if_neg (by rw [hok]; exact Bool.false_ne_true)]
    rw [hc]

theorem companionLoop_name (net : Net) (v b : String) (fe : Option String)
    (folder : FsPath) (fid : String) :
    ∀ (es : List String) (fs : FS) (c : CompOut),
      companionLoop net v b fe folder fid es fs = .ok c → c.ok = true →
      ∃ e ∈ es, c.vidPath = some (folder ++ [fid ++ "." ++ e]) := by
  intro es
  induction es with
  | nil =>
    intro fs c hc hok
    simp only [companionLoop] at hc
    obtain rfl := Except.ok.inj hc
    cases hok
  | cons e rest ih =>
    intro fs c hc hok
    simp only [companionLoop] at hc
    cases hdf : download_file net (if fe = some e then v else b ++ "." ++ e)
        (folder ++ [fid ++ "." ++ e]) fs with
    | error ex => rw [hdf] at hc; cases hc
    | ok o =>
      simp only [hdf] at hc
      by_cases ho : o.ok = true
      · rw [if_pos ho] at hc
        obtain rfl := Except.ok.inj hc
        exact ⟨e, List.mem_cons_self e rest, rfl⟩
      · rw [if_neg ho] at hc
        cases hrec : companionLoop net v b fe folder fid rest o.fs with
        | error ex => rw [hrec] at hc; cases hc
        | ok c2 =>
          rw [hrec] at hc
          obtain rfl := Except.ok.inj hc
          obtain ⟨e', he', hvp⟩ := ih o.fs c2 hrec hok
          exact ⟨e', List.mem_cons_of_mem e he', hvp⟩

theorem companionLoop_tried_prefix (net : Net) (v b : String) (fe : Option String)
    (folder : FsPath) (fid : String) :
    ∀ (es : List String) (fs : FS) (c : CompOut),
      companionLoop net v b fe folder fid es fs = .ok c →
      c.tried.map Prod.fst <+: companionAttemptURLsAux v b fe es := by
  intro es
  induction es with
  | nil =>
    intro fs c hc
    simp only [companionLoop] at hc
    obtain rfl := Except.ok.inj hc
    simp [companionAttemptURLsAux]
  | cons e rest ih =>
    intro fs c hc
    simp only [companionLoop] at hc
    cases hdf : download_file net (if fe = some e then v else b ++ "." ++ e)
        (folder ++ [fid ++ "." ++ e]) fs with
    | error ex => rw [hdf] at hc; cases hc
    | ok o =>
      simp only [hdf] at hc
      by_cases ho : o.ok = true
      · rw [if_pos ho] at hc
        obtain rfl := Except.ok.inj hc
        refine ⟨companionAttemptURLsAux v b fe rest, ?_⟩
        simp [companionAttemptURLsAux]
      · rw [if_neg ho] at hc
        cases hrec : companionLoop net v b fe folder fid rest o.fs with
        | error ex => rw [hrec] at hc; cases hc
        | ok c2 =>
          rw [hrec] at hc
          obtain rfl := Except.ok.inj hc
          obtain ⟨t, ht⟩ := ih o.fs c2 hrec
          refine ⟨t, ?_⟩
          simp only [companionAttemptURLsAux, List.map_cons, List.map_map] at ht ⊢
          rw [List.cons_append]
          exact congrArg _ ht

theorem isDir_rmtree_self (fs : FS) (p : FsPath) :
    (fs.rmtree p).isDir p = false := by
  unfold FS.rmtree FS.isDir
  simp [List.mem_filter]

theorem size?_rmtree_under (fs : FS) (p q : FsPath) (h : p <+: q) :
    (fs.rmtree p).size? q = none := by
  unfold FS.rmtree FS.size?
  have : (List.filter (fun e => ¬ p <+: e.1) fs.files).find? (fun e => e.1 = q) = none := by
    refine List.find?_eq_none.mpr (fun x hx => ?_)
    rcases List.mem_filter.mp hx with ⟨_, hnp⟩
    intro hxq
    rw [decide_eq_true_eq] at hxq
    rw [hxq] at hnp
    simp [h] at hnp
  rw [this]
  rfl

theorem pairFolder_default (fs : FS) (pdfUrl : String) (baseDir : FsPath)
    (hdir : fs.isDir (baseDir ++ [(parse_url_info pdfUrl).1]) = false) :
    pairFolder fs pdfUrl baseDir =
      baseDir ++ [(parse_url_info pdfUrl).1] ++ [(parse_url_info pdfUrl).2] := by
  unfold pairFolder pairFolderFound
  rw [hdir]
  rfl

theorem processOutcome_failed (key : String) (completed : Finset String) (s f : Nat) :
    processOutcome false false key completed s f = (completed, s, f + 1) := rfl

/-! ## Lemmas: reconciliation -/

theorem reconcileStep_mono (fs : FS) (outputDir : FsPath)
    (acc : List (String × String) × Finset String) (pm : String × String) :
    acc.2 ⊆ (reconcileStep fs outputDir acc pm).2 := by
  unfold reconcileStep
  split_ifs
  · exact fun x hx => hx
  · exact fun x hx => Finset.mem_insert_of_mem hx
  · exact fun x hx => hx

theorem reconcileFold_mono (fs : FS) (outputDir : FsPath) :
    ∀ (pairs : List (String × String)) (acc : List (String × String) × Finset String),
      acc.2 ⊆ (pairs.foldl (reconcileStep fs outputDir) acc).2 := by
  intro pairs
  induction pairs with
  | nil => exact fun acc => fun x hx => hx
  | cons pm rest ih =>
    intro acc
    exact fun x hx => ih (reconcileStep fs outputDir acc pm)
      (reconcileStep_mono fs outputDir acc pm hx)

theorem retryFold_sub (f : (String × String) → String) :
    ∀ (l : List (String × String)) (comp : Finset String),
      l.foldl (fun c pm => c.erase (f pm)) comp ⊆ comp := by
  intro l
  induction l with
  | nil => exact fun comp => fun x hx => hx
  | cons pm rest ih =>
    intro comp
    exact fun x hx => Finset.erase_subset _ _ (ih (comp.erase (f pm)) hx)

/-! ## Claims -/

/-- Claim C7: identity resolution (`parse_url_info`) is a pure
deterministic function of the primary URL:
`resolve("https://host/DataSet 3/ABC.pdf")` yields
`("DataSet_3", "ABC")`, `resolve("https://example.com/files/x.pdf")`
yields `("example_com", "x")`, and for every URL whose percent-decoding
contains the dataset marker followed by a number, the group is
`"DataSet_<N>"` and the item id is the decoded filename stripped of its
extension. -/
theorem claim_C7 :
    parse_url_info "https://host/DataSet 3/ABC.pdf" = ("DataSet_3", "ABC") ∧
    parse_url_info "https://example.com/files/x.pdf" = ("example_com", "x") ∧
    ∀ url n, dsScan (unquote url).data = some n →
      parse_url_info url =
        ("DataSet_" ++ n, splitextRoot (afterLastSlash (unquote url))) := by
  refine ⟨by decide, by decide, ?_⟩
  intro url n h
  unfold parse_url_info
  rw [h]

/-- Witness for C7 at a URL with percent-escapes: its decoding contains
the marker, and resolution yields the dataset group and decoded stem. -/
theorem claim_C7_witness :
    dsScan (unquote "https://h/DataSet%202/Z%20Q.pdf").data = some "2" ∧
    parse_url_info "https://h/DataSet%202/Z%20Q.pdf" =
      ("DataSet_" ++ "2",
        splitextRoot (afterLastSlash (unquote "https://h/DataSet%202/Z%20Q.pdf"))) :=
  ⟨by decide, claim_C7.2.2 "https://h/DataSet%202/Z%20Q.pdf" "2" (by decide)⟩

/-- Claim C9 as stated is false: `load_progress` returns the empty set
when the progress file is absent or not valid JSON, but a file whose
content is the valid JSON `[]` (a top-level array: corrupt for this
program) parses fine and then `data.get("completed", [])` raises an
uncaught `AttributeError` — corruption of that shape does block the
run. -/
theorem claim_C9_counterexample :
    load_progress (.present (some (.jarr []))) = .error .attrError := rfl

/-- Claim C9 (amended): loading the progress ledger returns the empty
set without raising when the file is absent, when its content is not
valid JSON (`json.JSONDecodeError` is caught), and when it parses to an
object without a `"completed"` entry; but valid JSON of non-object
shape raises an uncaught `AttributeError`. -/
theorem claim_C9 :
    load_progress .absent = .ok ∅ ∧
    load_progress (.present none) = .ok ∅ ∧
    (∀ fields, jlookup fields "completed" = none →
      load_progress (.present (some (.jobj fields))) = .ok ∅) ∧
    load_progress (.present (some (.jarr []))) = .error .attrError := by
  refine ⟨rfl, rfl, ?_, rfl⟩
  intro fields h
  show pySet ((jlookup fields "completed").getD (.jarr [])) = .ok ∅
  rw [h]
  rfl

/-- Witness for C9 at the empty object: it has no `"completed"` entry
and loads as the empty ledger. -/
theorem claim_C9_witness :
    jlookup [] "completed" = none ∧
    load_progress (.present (some (.jobj []))) = .ok ∅ :=
  ⟨rfl, claim_C9.2.2.1 [] rfl⟩

/-- Claim C2 as stated is false: the retry tool's reconciliation
(retry_skipped.py:180-190) removes from the ledger the key of a pair
whose folder is absent on disk — here, with an empty filesystem, the key
`"example_com/x"` is in the ledger before the retry reconciliation and
gone after it, with no force-reset involved. -/
theorem claim_C2_counterexample :
    "example_com/x" ∈ ({"example_com/x"} : Finset String) ∧
    "example_com/x" ∉
      retryReconcile ⟨[], [], []⟩ [("https://example.com/x.pdf", "v")] []
        ({"example_com/x"} : Finset String) := by
  refine ⟨by simp, ?_⟩
  decide

/-- Claim C2 (amended): the main downloader's reconciliation against the
on-disk layout only ever adds keys to the ledger, so across any sequence
of its calls the key set only grows (outside the explicit `--force`
reset, which clears it); the retry tool's reconciliation however only
ever removes keys (those of pairs with no folder on disk), so
monotonicity does not extend across retry-tool runs. -/
theorem claim_C2 :
    (∀ fs pairs outputDir completed,
      completed ⊆ (reconcileMain fs pairs outputDir completed).2) ∧
    (∀ fs pairs outputDir completed,
      retryReconcile fs pairs outputDir completed ⊆ completed) := by
  constructor
  · intro fs pairs outputDir completed
    exact reconcileFold_mono fs outputDir pairs ([], completed)
  · intro fs pairs outputDir completed
    exact retryFold_sub (fun pm => pairKey pm.1) _ completed

/-- Claim C8: `download_file` never propagates an exception past its
boundary — for every transport behavior and filesystem it returns a
boolean result (the only exceptions its `try:` block raises are
`requests.RequestException`s, all caught); in particular a transport
that raises on every attempt still produces the boolean `False`. -/
theorem claim_C8 :
    (∀ (net : Net) url p fs, ∃ out, download_file net url p fs = .ok out) ∧
    (∀ (net : Net) url p fs, (∀ j, net (encodeSpaces url) j = .connErr) →
      fs.existsNonzero p = false →
      ∃ out, download_file net url p fs = .ok out ∧ out.ok = false) := by
  constructor
  · intro net url p fs
    obtain ⟨out, hout, -, -, -⟩ := download_file_spec net url p fs
    exact ⟨out, hout⟩
  · intro net url p fs hconn hne
    obtain ⟨out, hout, hok, -, -⟩ := download_file_fail net url p fs
      (fun j => by rw [hconn j]; trivial) hne
    exact ⟨out, hout, hok⟩

/-- Witness for C8: an always-raising transport still gets a boolean
`False` out of `download_file`. -/
theorem claim_C8_witness :
    ∃ out, download_file (fun _ _ => .connErr) "u" ["d", "f"] ⟨[], [], []⟩ = .ok out ∧
      out.ok = false :=
  claim_C8.2 (fun _ _ => .connErr) "u" ["d", "f"] ⟨[], [], []⟩ (fun _ => rfl) rfl

/-- A first-attempt response whose status escapes both the 403/404 check
and `raise_for_status` and whose body is non-empty: the body is streamed
and promoted, and the fetch succeeds in a single request. -/
theorem download_file_stream_first (net : Net) (url : String) (p : FsPath) (fs : FS)
    (hne : fs.existsNonzero p = false)
    {c b : Nat} (h0 : net (encodeSpaces url) 0 = .status c b)
    (h43 : ¬(c = 403 ∨ c = 404)) (h4 : ¬(400 ≤ c ∧ c < 600)) (hb : 0 < b) :
    ∃ out, download_file net url p fs = .ok out ∧ out.ok = true ∧
      out.reqs = [encodeSpaces url] := by
  have hstep := @fetchLoop_succ_ok net (encodeSpaces url) p 0 2 (fs.makedirs p.dropLast) _ _ _
    (@attemptOnce_status_good net (encodeSpaces url) p 0 (fs.makedirs p.dropLast) c b
      h0 h43 h4 hb)
  refine ⟨⟨true,
    ((fs.makedirs p.dropLast).writeFile (tmpPath p) b).replaceFile (tmpPath p) p,
    [encodeSpaces url],
    fs.makedirs p.dropLast ::
      [(fs.makedirs p.dropLast).writeFile (tmpPath p) b,
       ((fs.makedirs p.dropLast).writeFile (tmpPath p) b).replaceFile (tmpPath p) p]⟩,
    ?_, rfl, rfl⟩
  unfold download_file
  rw [hne]
  simp only [Bool.false_eq_true, if_false]
  have h3 : MAX_RETRIES = 2 + 1 := rfl
  rw [h3, hstep]

/-- A first-attempt response whose status escapes both the 403/404 check
and `raise_for_status` but whose body is empty: the temp file is written
and discarded and the fetch fails in a single request, without retrying. -/
theorem download_file_empty_first (net : Net) (url : String) (p : FsPath) (fs : FS)
    (hne : fs.existsNonzero p = false)
    {c : Nat} (h0 : net (encodeSpaces url) 0 = .status c 0)
    (h43 : ¬(c = 403 ∨ c = 404)) (h4 : ¬(400 ≤ c ∧ c < 600)) :
    ∃ out, download_file net url p fs = .ok out ∧ out.ok = false ∧
      out.reqs = [encodeSpaces url] := by
  have hstep := @fetchLoop_succ_ok net (encodeSpaces url) p 0 2 (fs.makedirs p.dropLast) _ _ _
    (@attemptOnce_status_empty net (encodeSpaces url) p 0 (fs.makedirs p.dropLast) c 0
      h0 h43 h4 (by omega))
  refine ⟨⟨false,
    ((fs.makedirs p.dropLast).writeFile (tmpPath p) 0).removeFile (tmpPath p),
    [encodeSpaces url],
    fs.makedirs p.dropLast ::
      [(fs.makedirs p.dropLast).writeFile (tmpPath p) 0,
       ((fs.makedirs p.dropLast).writeFile (tmpPath p) 0).removeFile (tmpPath p)]⟩,
    ?_, rfl, rfl⟩
  unfold download_file
  rw [hne]
  simp only [Bool.false_eq_true, if_false]
  have h3 : MAX_RETRIES = 2 + 1 := rfl
  rw [h3, hstep]

/-- Claim C6 as stated is false in its retry clause: not every non-2xx
status is retried. `requests.Response.raise_for_status` raises only for
400 ≤ status < 600, so a deliverable status such as 650 is streamed like
a success: with a non-empty body the fetch returns `True` after a single
request, and with an empty body it returns `False` after a single
request — in neither case are further retry attempts consumed. -/
theorem claim_C6_counterexample :
    Except.map (fun o => (o.ok, o.reqs))
      (download_file (fun _ _ => .status 650 5) "u" ["d", "f"] ⟨[], [], []⟩) =
      .ok (true, ["u"]) ∧
    Except.map (fun o => (o.ok, o.reqs))
      (download_file (fun _ _ => .status 650 0) "u" ["d", "f"] ⟨[], [], []⟩) =
      .ok (false, ["u"]) := ⟨rfl, rfl⟩

/-- Claim C6 (amended): a 403/404 response, or a 2xx response with an
empty body, at any attempt `j` within the retry budget makes
`download_file` return failure immediately — exactly `j + 1` requests,
no further retries for that URL; the responses retried up to the budget
of `MAX_RETRIES` requests are exactly the other 4xx/5xx statuses (the
range `raise_for_status` raises on) and transport-level errors; a status
outside 400–599 is not retried — its body is streamed like a success,
returning `True` on a non-empty body and `False` on an empty one after a
single request. -/
theorem claim_C6 :
    (∀ (net : Net) url p fs j, fs.existsNonzero p = false → j < MAX_RETRIES →
      (∀ i, i < j → retryableResp (net (encodeSpaces url) i)) →
      terminalResp (net (encodeSpaces url) j) →
      ∃ out, download_file net url p fs = .ok out ∧ out.ok = false ∧
        out.reqs = List.replicate (j + 1) (encodeSpaces url)) ∧
    (∀ (net : Net) url p fs, fs.existsNonzero p = false →
      (∀ i, i < MAX_RETRIES → retryableResp (net (encodeSpaces url) i)) →
      ∃ out, download_file net url p fs = .ok out ∧ out.ok = false ∧
        out.reqs = List.replicate MAX_RETRIES (encodeSpaces url)) ∧
    (∀ (net : Net) url p fs cc bb, fs.existsNonzero p = false →
      ¬(cc = 403 ∨ cc = 404) → ¬(400 ≤ cc ∧ cc < 600) →
      net (encodeSpaces url) 0 = .status cc bb → 0 < bb →
      ∃ out, download_file net url p fs = .ok out ∧ out.ok = true ∧
        out.reqs = [encodeSpaces url]) ∧
    (∀ (net : Net) url p fs cc, fs.existsNonzero p = false →
      ¬(cc = 403 ∨ cc = 404) → ¬(400 ≤ cc ∧ cc < 600) →
      net (encodeSpaces url) 0 = .status cc 0 →
      ∃ out, download_file net url p fs = .ok out ∧ out.ok = false ∧
        out.reqs = [encodeSpaces url]) := by
  refine ⟨?_, ?_, ?_, ?_⟩
  · exact fun net url p fs j hne hj hr ht =>
      download_file_terminal_at net url p fs hne (j := j) hj hr ht
  · exact fun net url p fs hne hr => download_file_all_retry net url p fs hne hr
  · intro net url p fs cc bb hne h43 h4 h0 hb
    exact download_file_stream_first net url p fs hne h0 h43 h4 hb
  · intro net url p fs cc hne h43 h4 h0
    exact download_file_empty_first net url p fs hne h0 h43 h4

/-- Witness for C6: a 404 on the first attempt produces one request and
failure; three connection errors produce three requests; a 650 status
with a non-empty body produces one request and success; a 650 status
with an empty body produces one request and failure. -/
theorem claim_C6_witness :
    (∃ out, download_file (fun _ _ => .status 404 0) "u" ["d", "f"] ⟨[], [], []⟩ = .ok out ∧
      out.ok = false ∧ out.reqs = List.replicate 1 (encodeSpaces "u")) ∧
    (∃ out, download_file (fun _ _ => .connErr) "u" ["d", "f"] ⟨[], [], []⟩ = .ok out ∧
      out.ok = false ∧ out.reqs = List.replicate MAX_RETRIES (encodeSpaces "u")) ∧
    (∃ out, download_file (fun _ _ => .status 650 5) "u" ["d", "f"] ⟨[], [], []⟩ = .ok out ∧
      out.ok = true ∧ out.reqs = [encodeSpaces "u"]) ∧
    (∃ out, download_file (fun _ _ => .status 650 0) "u" ["d", "f"] ⟨[], [], []⟩ = .ok out ∧
      out.ok = false ∧ out.reqs = [encodeSpaces "u"]) :=
  ⟨claim_C6.1 (fun _ _ => .status 404 0) "u" ["d", "f"] ⟨[], [], []⟩ 0 rfl (by decide)
      (fun i hi => absurd hi (by omega)) (Or.inr (Or.inl rfl)),
   claim_C6.2.1 (fun _ _ => .connErr) "u" ["d", "f"] ⟨[], [], []⟩ rfl
      (fun i _ => trivial),
   claim_C6.2.2.1 (fun _ _ => .status 650 5) "u" ["d", "f"] ⟨[], [], []⟩ 650 5 rfl
      (by decide) (by decide) rfl (by decide),
   claim_C6.2.2.2 (fun _ _ => .status 650 0) "u" ["d", "f"] ⟨[], [], []⟩ 650 rfl
      (by decide) (by decide) rfl⟩

/-- Claim C5 as stated is false: when an empty file already sits at the
final path (left by an external tool — `download_file` itself never
creates one) and the transport answers 404, the fetch returns `False`
without touching it, so after that execution of fetch an empty file is
visible at the final path. -/
theorem claim_C5_counterexample :
    Except.map (fun o => (o.ok, o.fs.size? ["d", "f"]))
      (download_file (fun _ _ => .status 404 0) "u" ["d", "f"]
        ⟨[["d"]], [(["d", "f"], 0)], []⟩) = .ok (false, some 0) := rfl

/-- Claim C5 (amended): provided the final path does not already hold an
empty file when `download_file` is called, then in every intermediate
filesystem state of the call and in its final state, any file visible at
the final path is non-empty and is either the pre-existing file or the
complete body of a response the transport finished with a status the
fetch promotes — the temp-sibling write plus atomic rename never makes a
partial or empty file visible at the final path, including executions
where the transport aborts mid-stream. -/
theorem claim_C5 (net : Net) (url : String) (p : FsPath) (fs : FS)
    (hp : p ≠ []) (hinit : fs.size? p ≠ some 0)
    (out : FetchOut) (hout : download_file net url p fs = .ok out) :
    (∀ fs' ∈ out.trace, ∀ n, fs'.size? p = some n →
      0 < n ∧ (fs.size? p = some n ∨
        ∃ k c, promoStatus c ∧ net (encodeSpaces url) k = .status c n)) ∧
    (∀ n, out.fs.size? p = some n →
      0 < n ∧ (fs.size? p = some n ∨
        ∃ k c, promoStatus c ∧ net (encodeSpaces url) k = .status c n)) := by
  obtain ⟨hfinal, htrace⟩ := download_file_goodAt net url p fs hp hinit out hout
  exact ⟨htrace, hfinal⟩

/-- Witness for C5: a 404-only transport starting from an empty
filesystem — the traced states and the final state hold no file at the
final path, so the invariant holds vacuously but the hypotheses are all
satisfied at this concrete input. -/
theorem claim_C5_witness :
    (∀ fs' ∈ (FetchOut.trace ⟨false, ⟨[["d"]], [], []⟩, ["u"], [⟨[["d"]], [], []⟩]⟩),
      ∀ n, fs'.size? ["d", "f"] = some n →
      0 < n ∧ ((⟨[], [], []⟩ : FS).size? ["d", "f"] = some n ∨
        ∃ k c, promoStatus c ∧
          (fun _ _ => Resp.status 404 0 : Net) (encodeSpaces "u") k = .status c n)) ∧
    (∀ n, (FetchOut.fs ⟨false, ⟨[["d"]], [], []⟩, ["u"], [⟨[["d"]], [], []⟩]⟩).size? ["d", "f"] = some n →
      0 < n ∧ ((⟨[], [], []⟩ : FS).size? ["d", "f"] = some n ∨
        ∃ k c, promoStatus c ∧
          (fun _ _ => Resp.status 404 0 : Net) (encodeSpaces "u") k = .status c n)) :=
  claim_C5 (fun _ _ => .status 404 0) "u" ["d", "f"] ⟨[], [], []⟩ (by decide)
    (by decide) ⟨false, ⟨[["d"]], [], []⟩, ["u"], [⟨[["d"]], [], []⟩]⟩ rfl

theorem existsNonzero_makedirs (fs : FS) (d p : FsPath) :
    (fs.makedirs d).existsNonzero p = fs.existsNonzero p := rfl

theorem string_ext_split (fid e : String) : fid ++ ("." ++ e) = fid ++ "." ++ e := by
  apply String.ext
  simp [String.data_append]

theorem pdfExt_eq (fid : String) : fid ++ ".pdf" = fid ++ "." ++ "pdf" := by
  apply String.ext
  simp [String.data_append]

theorem companionLoop_first_hit (net : Net) (v b : String) (e0 : String)
    (rest : List String) (folder : FsPath) (fid : String) (fs : FS)
    (h : fs.existsNonzero (folder ++ [fid ++ "." ++ e0]) = true) :
    companionLoop net v b (some e0) folder fid (e0 :: rest) fs =
      .ok ⟨true, some (folder ++ [fid ++ "." ++ e0]), fs, [],
        [(v, folder ++ [fid ++ "." ++ e0])]⟩ := by
  simp only [companionLoop, if_true]
  rw [download_file_exists h]
  rfl

theorem companionLoop_first_net (net : Net) (v b : String) (e0 : String)
    (rest : List String) (folder : FsPath) (fid : String) (fs : FS)
    (hne : fs.existsNonzero (folder ++ [fid ++ "." ++ e0]) = false)
    {cc bb : Nat} (h0 : net (encodeSpaces v) 0 = .status cc bb)
    (h43 : ¬(cc = 403 ∨ cc = 404)) (h4 : ¬(400 ≤ cc ∧ cc < 600)) (hb : 0 < bb) :
    ∃ c, companionLoop net v b (some e0) folder fid (e0 :: rest) fs = .ok c ∧
      c.ok = true ∧ c.vidPath = some (folder ++ [fid ++ "." ++ e0]) ∧
      c.tried = [(v, folder ++ [fid ++ "." ++ e0])] ∧
      c.fs.size? (folder ++ [fid ++ "." ++ e0]) = some bb ∧
      c.reqs = [encodeSpaces v] := by
  obtain ⟨o, ho, hok, hreqs, hsize, -, -⟩ := download_file_success_first net v
    (folder ++ [fid ++ "." ++ e0]) fs hne (by simp) h0 h43 h4 hb
  refine ⟨⟨true, some (folder ++ [fid ++ "." ++ e0]), o.fs, o.reqs,
    [(v, folder ++ [fid ++ "." ++ e0])]⟩, ?_, rfl, rfl, rfl, hsize, hreqs⟩
  simp only [companionLoop, if_true, ho]
  rw [if_pos hok]

/-- Claim C3 as stated is false in its second half: re-invoking the Pair
Materializer on a pair whose folder is complete with the companion
stored under the second list extension (`A.mp4` with priority
`["mov", "mp4"]`) issues a network request for the first extension
before short-circuiting on the second — one request, not zero. -/
theorem claim_C3_counterexample :
    Except.map (fun o => o.reqs)
      (download_pair (fun _ _ => .status 404 0) "https://e.com/A.pdf" "https://e.com/A.mov"
        ["out"] ["mov", "mp4"]
        ⟨[["out"], ["out", "e_com"], ["out", "e_com", "A"]],
         [(["out", "e_com", "A", "A.pdf"], 5), (["out", "e_com", "A", "A.mp4"], 7)], []⟩) =
      .ok ["https://e.com/A.mov"] ∧
    (["https://e.com/A.mov"] : List String) ≠ [] := ⟨rfl, by decide⟩

/-- Claim C3 (amended): a fetch whose local path already exists with
non-zero size returns success immediately with zero network requests;
consequently a second invocation of the Pair Materializer on a pair
whose folder is complete — the PDF present and the companion present
under the first extension of the priority list — performs zero network
requests. (When the companion is stored under a later extension, the
earlier extensions are re-probed over the network, see the
counterexample.) -/
theorem claim_C3 :
    (∀ (net : Net) url p fs, fs.existsNonzero p = true →
      download_file net url p fs = .ok ⟨true, fs, [], []⟩) ∧
    (∀ (net : Net) pdfUrl videoUrl baseDir e0 rest fs,
      fs.existsNonzero (pairFolder fs pdfUrl baseDir ++
        [(parse_url_info pdfUrl).2 ++ ".pdf"]) = true →
      fs.existsNonzero (pairFolder fs pdfUrl baseDir ++
        [(parse_url_info pdfUrl).2 ++ "." ++ e0]) = true →
      ∃ pout, download_pair net pdfUrl videoUrl baseDir (e0 :: rest) fs = .ok pout ∧
        pout.reqs = [] ∧ pout.pdfOk = true ∧ pout.vidOk = true) := by
  constructor
  · exact fun net url p fs h => download_file_exists h
  · intro net pdfUrl videoUrl baseDir e0 rest fs hpdf hvid
    have ho1 : download_file net pdfUrl
        (pairFolder fs pdfUrl baseDir ++ [(parse_url_info pdfUrl).2 ++ ".pdf"])
        (fs.makedirs (pairFolder fs pdfUrl baseDir)) =
        .ok ⟨true, fs.makedirs (pairFolder fs pdfUrl baseDir), [], []⟩ :=
      download_file_exists (by rw [existsNonzero_makedirs]; exact hpdf)
    have hc := companionLoop_first_hit net videoUrl (pairBaseVideoUrl videoUrl) e0 rest
      (pairFolder fs pdfUrl baseDir) (parse_url_info pdfUrl).2
      (fs.makedirs (pairFolder fs pdfUrl baseDir))
      (by rw [existsNonzero_makedirs]; exact hvid)
    refine ⟨⟨true, true, (parse_url_info pdfUrl).1, (parse_url_info pdfUrl).2,
      some (pairFolder fs pdfUrl baseDir ++ [(parse_url_info pdfUrl).2 ++ "." ++ e0]),
      fs.makedirs (pairFolder fs pdfUrl baseDir), [],
      [(videoUrl, pairFolder fs pdfUrl baseDir ++
        [(parse_url_info pdfUrl).2 ++ "." ++ e0])]⟩, ?_, rfl, rfl, rfl⟩
    unfold download_pair
    simp only [ho1, List.head?_cons, hc]
    simp

/-- Witness for C3 at a concrete complete folder (PDF and `.mov`
companion present, priority list starting with `"mov"`): the second
invocation performs zero requests. -/
theorem claim_C3_witness :
    ∃ pout, download_pair (fun _ _ => .status 404 0) "https://e.com/A.pdf"
        "https://e.com/A.mov" ["out"] ["mov", "mp4"]
        ⟨[["out"], ["out", "e_com"], ["out", "e_com", "A"]],
         [(["out", "e_com", "A", "A.pdf"], 5), (["out", "e_com", "A", "A.mov"], 7)], []⟩ =
      .ok pout ∧ pout.reqs = [] ∧ pout.pdfOk = true ∧ pout.vidOk = true :=
  claim_C3.2 (fun _ _ => .status 404 0) "https://e.com/A.pdf" "https://e.com/A.mov"
    ["out"] "mov" ["mp4"]
    ⟨[["out"], ["out", "e_com"], ["out", "e_com", "A"]],
     [(["out", "e_com", "A", "A.pdf"], 5), (["out", "e_com", "A", "A.mov"], 7)], []⟩
    (by decide) (by decide)

/-- Claim C10: the local companion file is always named
`<itemID>.<ext>` for the priority-list extension `ext` that succeeded —
whenever the companion loop succeeds, its saved path is
`<folder>/<file_id>.<e>` for some `e` in the extension list; and in
particular the first probe fetches the original companion URL verbatim
while saving under the first list extension's name, so the saved
extension need not match the URL's actual extension. -/
theorem claim_C10 :
    (∀ (net : Net) v b fe folder fid es fs c,
      companionLoop net v b fe folder fid es fs = .ok c → c.ok = true →
      ∃ e ∈ es, c.vidPath = some (folder ++ [fid ++ "." ++ e])) ∧
    (∀ (net : Net) pdfUrl videoUrl baseDir e0 rest fs,
      fs.isDir (baseDir ++ [(parse_url_info pdfUrl).1]) = false →
      (∀ q, (baseDir ++ [(parse_url_info pdfUrl).1]) <+: q → fs.size? q = none) →
      e0 ≠ "pdf" →
      ∀ cc bb, net (encodeSpaces videoUrl) 0 = .status cc bb →
      ¬(cc = 403 ∨ cc = 404) → ¬ 400 ≤ cc → 0 < bb →
      ∃ pout, download_pair net pdfUrl videoUrl baseDir (e0 :: rest) fs = .ok pout ∧
        pout.vidOk = true ∧
        pout.vidPath = some (baseDir ++ [(parse_url_info pdfUrl).1] ++
          [(parse_url_info pdfUrl).2] ++ [(parse_url_info pdfUrl).2 ++ "." ++ e0]) ∧
        pout.fs.size? (baseDir ++ [(parse_url_info pdfUrl).1] ++
          [(parse_url_info pdfUrl).2] ++ [(parse_url_info pdfUrl).2 ++ "." ++ e0]) = some bb ∧
        pout.tried.map Prod.fst = [videoUrl]) := by
  constructor
  · exact fun net v b fe folder fid es fs c hc hok =>
      companionLoop_name net v b fe folder fid es fs c hc hok
  · intro net pdfUrl videoUrl baseDir e0 rest fs hdir hfresh hnopdf cc bb h0 h43 h4 hb
    have hF := pairFolder_default fs pdfUrl baseDir hdir
    set g := (parse_url_info pdfUrl).1 with hg
    set f2 := (parse_url_info pdfUrl).2 with hf2
    set folder := baseDir ++ [g] ++ [f2] with hfolder
    set vp := folder ++ [f2 ++ "." ++ e0] with hvp
    obtain ⟨o1, ho1, -, heff1, -⟩ := download_file_spec net pdfUrl
      (pairFolder fs pdfUrl baseDir ++ [f2 ++ ".pdf"])
      (fs.makedirs (pairFolder fs pdfUrl baseDir))
    have hvpne : vp ≠ pairFolder fs pdfUrl baseDir ++ [f2 ++ ".pdf"] := by
      rw [hF, pdfExt_eq]
      exact ext_path_ne hnopdf folder
    have hvp0 : fs.size? vp = none := by
      refine hfresh vp ?_
      rw [hvp, hfolder]
      refine ⟨[f2] ++ [f2 ++ "." ++ e0], by simp⟩
    have hvp1 : o1.fs.size? vp = none := by
      refine heff1 vp hvpne ?_
      rw [size?_makedirs]
      exact hvp0
    obtain ⟨c, hc, hcok, hcvp, hctried, hcsize, -⟩ :=
      companionLoop_first_net net videoUrl (pairBaseVideoUrl videoUrl) e0 rest
        (pairFolder fs pdfUrl baseDir) f2 o1.fs
        (by rw [hF]; exact existsNonzero_of_none hvp1) h0 h43 (fun hh => h4 hh.1) hb
    refine ⟨⟨o1.ok, true, g, f2, c.vidPath, c.fs, o1.reqs ++ c.reqs, c.tried⟩, ?_, rfl, ?_, ?_, ?_⟩
    · unfold download_pair
      simp only [ho1, List.head?_cons, hc]
      rw [if_pos hcok]
    · rw [hcvp, hF]
    · rw [hF] at hcsize
      exact hcsize
    · rw [hctried]
      rfl

/-- Witness for C10: the companion URL ends in `.qt` but the priority
list starts with `"mov"`; the fetch uses the original `.qt` URL verbatim
and saves the body as `A.mov`. -/
theorem claim_C10_witness :
    ∃ pout, download_pair
        (fun u _ => if u = "https://x/item.qt" then .status 200 7 else .status 404 0)
        "https://e.com/A.pdf" "https://x/item.qt" ["out"] ["mov"] ⟨[], [], []⟩ =
      .ok pout ∧ pout.vidOk = true ∧
      pout.vidPath = some (["out"] ++ [(parse_url_info "https://e.com/A.pdf").1] ++
        [(parse_url_info "https://e.com/A.pdf").2] ++
        [(parse_url_info "https://e.com/A.pdf").2 ++ "." ++ "mov"]) ∧
      pout.fs.size? (["out"] ++ [(parse_url_info "https://e.com/A.pdf").1] ++
        [(parse_url_info "https://e.com/A.pdf").2] ++
        [(parse_url_info "https://e.com/A.pdf").2 ++ "." ++ "mov"]) = some 7 ∧
      pout.tried.map Prod.fst = ["https://x/item.qt"] :=
  claim_C10.2 (fun u _ => if u = "https://x/item.qt" then .status 200 7 else .status 404 0)
    "https://e.com/A.pdf" "https://x/item.qt" ["out"] "mov" [] ⟨[], [], []⟩
    (by decide) (fun q _ => rfl) (by decide) 200 7 (by decide) (by decide) (by decide)
    (by decide)

theorem companionLoop_step_fail (net : Net) (v b : String) (fe : Option String)
    (e : String) (rest : List String) (folder : FsPath) (fid : String) (fs : FS)
    (u : String) (hu : (if fe = some e then v else b ++ "." ++ e) = u)
    (hne : fs.existsNonzero (folder ++ [fid ++ "." ++ e]) = false)
    (hfail : ∀ j, notSuccess (net (encodeSpaces u) j)) :
    ∃ o : FetchOut, o.ok = false ∧ (∀ q, fs.size? q = none → o.fs.size? q = none) ∧
      (∀ qq ∈ o.reqs, qq = encodeSpaces u) ∧
      ∀ c2, companionLoop net v b fe folder fid rest o.fs = .ok c2 →
        companionLoop net v b fe folder fid (e :: rest) fs =
          .ok ⟨c2.ok, c2.vidPath, c2.fs, o.reqs ++ c2.reqs,
            (u, folder ++ [fid ++ "." ++ e]) :: c2.tried⟩ := by
  obtain ⟨o, ho, hok, hreqs, heff⟩ :=
    download_file_fail net u (folder ++ [fid ++ "." ++ e]) fs hfail hne
  refine ⟨o, hok, heff, hreqs, ?_⟩
  intro c2 hc2
  simp only [companionLoop, hu, ho]
  rw [if_neg (by rw [hok]; exact Bool.false_ne_true)]
  rw [hc2]

theorem companionLoop_step_hitNet (net : Net) (v b : String) (fe : Option String)
    (e : String) (rest : List String) (folder : FsPath) (fid : String) (fs : FS)
    (u : String) (hu : (if fe = some e then v else b ++ "." ++ e) = u)
    (hne : fs.existsNonzero (folder ++ [fid ++ "." ++ e]) = false)
    {cc bb : Nat} (h0 : net (encodeSpaces u) 0 = .status cc bb)
    (h43 : ¬(cc = 403 ∨ cc = 404)) (h4 : ¬(400 ≤ cc ∧ cc < 600)) (hb : 0 < bb) :
    ∃ c, companionLoop net v b fe folder fid (e :: rest) fs = .ok c ∧
      c.ok = true ∧ c.vidPath = some (folder ++ [fid ++ "." ++ e]) ∧
      c.tried = [(u, folder ++ [fid ++ "." ++ e])] ∧
      c.fs.size? (folder ++ [fid ++ "." ++ e]) = some bb ∧
      c.reqs = [encodeSpaces u] := by
  obtain ⟨o, ho, hok, hreqs, hsize, -, -⟩ := download_file_success_first net u
    (folder ++ [fid ++ "." ++ e]) fs hne (by simp) h0 h43 h4 hb
  refine ⟨⟨true, some (folder ++ [fid ++ "." ++ e]), o.fs, o.reqs,
    [(u, folder ++ [fid ++ "." ++ e])]⟩, ?_, rfl, rfl, rfl, hsize, hreqs⟩
  simp only [companionLoop, hu, ho]
  rw [if_pos hok]

/-- Claim C4 as stated is false in its "every subsequent extension
fetches base + '.' + ext" clause: the source compares `ext ==
video_extensions[0]` by value, so with the duplicate priority list
`["mov", "mov"]` and companion URL `https://x/item.qt`, the second
attempt re-fetches the original `.qt` URL verbatim instead of
`https://x/item.mov`. -/
theorem claim_C4_counterexample :
    Except.map (fun o => o.tried.map Prod.fst)
      (download_pair (fun _ _ => .status 404 0) "https://e.com/A.pdf" "https://x/item.qt"
        ["out"] ["mov", "mov"] ⟨[], [], []⟩) =
      .ok ["https://x/item.qt", "https://x/item.qt"] ∧
    ("https://x/item.qt" : String) ≠ stripToLastDot "https://x/item.qt" ++ "." ++ "mov" :=
  ⟨rfl, by decide⟩

/-- Claim C4 (amended): companion probing tries extensions from the
priority list in order and stops at the first success; the fetched URL
for each extension is the original companion URL when the extension
equals the first list entry (compared by value, so a duplicate of the
first entry is also fetched verbatim), and the extension-stripped
companion URL plus `"." + ext` otherwise; in particular, for companion
URL `<base>.mov` and list `["mov", "mp4", "jpg"]`, if the `.mov` fetch
never succeeds and the `.mp4` fetch succeeds, the resulting file is
`<item>.mp4` and no `.jpg` attempt is made. -/
theorem claim_C4 :
    (∀ (net : Net) v b fe folder fid es fs c,
      companionLoop net v b fe folder fid es fs = .ok c →
      c.tried.map Prod.fst <+: companionAttemptURLsAux v b fe es) ∧
    (∀ (net : Net) pdfUrl videoUrl baseDir fs,
      fs.isDir (baseDir ++ [(parse_url_info pdfUrl).1]) = false →
      (∀ q, (baseDir ++ [(parse_url_info pdfUrl).1]) <+: q → fs.size? q = none) →
      (∀ j, notSuccess (net (encodeSpaces videoUrl) j)) →
      ∀ cc bb, net (encodeSpaces (pairBaseVideoUrl videoUrl ++ "." ++ "mp4")) 0 =
        .status cc bb →
      ¬(cc = 403 ∨ cc = 404) → ¬ 400 ≤ cc → 0 < bb →
      ∃ pout, download_pair net pdfUrl videoUrl baseDir ["mov", "mp4", "jpg"] fs =
        .ok pout ∧ pout.vidOk = true ∧
        pout.vidPath = some (baseDir ++ [(parse_url_info pdfUrl).1] ++
          [(parse_url_info pdfUrl).2] ++ [(parse_url_info pdfUrl).2 ++ "." ++ "mp4"]) ∧
        pout.fs.size? (baseDir ++ [(parse_url_info pdfUrl).1] ++
          [(parse_url_info pdfUrl).2] ++
          [(parse_url_info pdfUrl).2 ++ "." ++ "mp4"]) = some bb ∧
        pout.tried.map Prod.fst =
          [videoUrl, pairBaseVideoUrl videoUrl ++ "." ++ "mp4"]) := by
  constructor
  · exact fun net v b fe folder fid es fs c hc =>
      companionLoop_tried_prefix net v b fe folder fid es fs c hc
  · intro net pdfUrl videoUrl baseDir fs hdir hfresh hmov cc bb h0 h43 h4 hb
    have hF := pairFolder_default fs pdfUrl baseDir hdir
    have hunder : ∀ e : String,
        fs.size? (pairFolder fs pdfUrl baseDir ++
          [(parse_url_info pdfUrl).2 ++ "." ++ e]) = none := by
      intro e
      rw [hF]
      refine hfresh _ ⟨[(parse_url_info pdfUrl).2] ++
        [(parse_url_info pdfUrl).2 ++ "." ++ e], by simp⟩
    obtain ⟨o1, ho1, -, heff1, -⟩ := download_file_spec net pdfUrl
      (pairFolder fs pdfUrl baseDir ++ [(parse_url_info pdfUrl).2 ++ ".pdf"])
      (fs.makedirs (pairFolder fs pdfUrl baseDir))
    have hpath1 : ∀ e : String, e ≠ "pdf" →
        o1.fs.size? (pairFolder fs pdfUrl baseDir ++
          [(parse_url_info pdfUrl).2 ++ "." ++ e]) = none := by
      intro e he
      refine heff1 _ ?_ (by rw [size?_makedirs]; exact hunder e)
      rw [pdfExt_eq]
      exact ext_path_ne he _
    obtain ⟨om, homok, homeff, -, homstep⟩ :=
      companionLoop_step_fail net videoUrl (pairBaseVideoUrl videoUrl) (some "mov")
        "mov" ["mp4", "jpg"] (pairFolder fs pdfUrl baseDir) (parse_url_info pdfUrl).2
        o1.fs videoUrl (if_pos rfl)
        (existsNonzero_of_none (hpath1 "mov" (by decide))) hmov
    obtain ⟨c2, hc2, hc2ok, hc2vp, hc2tried, hc2size, -⟩ :=
      companionLoop_step_hitNet net videoUrl (pairBaseVideoUrl videoUrl) (some "mov")
        "mp4" ["jpg"] (pairFolder fs pdfUrl baseDir) (parse_url_info pdfUrl).2 om.fs
        (pairBaseVideoUrl videoUrl ++ "." ++ "mp4") (if_neg (by decide))
        (existsNonzero_of_none (homeff _ (hpath1 "mp4" (by decide)))) h0 h43
        (fun hh => h4 hh.1) hb
    have hloop := homstep c2 hc2
    refine ⟨⟨o1.ok, true, (parse_url_info pdfUrl).1, (parse_url_info pdfUrl).2,
      c2.vidPath, c2.fs, o1.reqs ++ (om.reqs ++ c2.reqs),
      (videoUrl, pairFolder fs pdfUrl baseDir ++
        [(parse_url_info pdfUrl).2 ++ "." ++ "mov"]) :: c2.tried⟩, ?_, rfl, ?_, ?_, ?_⟩
    · unfold download_pair
      simp only [ho1, List.head?_cons, hloop]
      rw [if_pos hc2ok]
    · rw [hc2vp, hF]
    · rw [hF] at hc2size
      exact hc2size
    · rw [hc2tried]
      rfl

/-- Witness for C4: a transport that 404s the `.mov` URL and serves the
`.mp4` URL — the pair materializer saves `A.mp4` and never attempts
`.jpg`. -/
theorem claim_C4_witness :
    ∃ pout, download_pair
        (fun u _ => if u = "https://x/y/item.mp4" then .status 200 9 else .status 404 0)
        "https://e.com/A.pdf" "https://x/y/item.mov" ["out"] ["mov", "mp4", "jpg"]
        ⟨[], [], []⟩ = .ok pout ∧ pout.vidOk = true ∧
      pout.vidPath = some (["out"] ++ [(parse_url_info "https://e.com/A.pdf").1] ++
        [(parse_url_info "https://e.com/A.pdf").2] ++
        [(parse_url_info "https://e.com/A.pdf").2 ++ "." ++ "mp4"]) ∧
      pout.fs.size? (["out"] ++ [(parse_url_info "https://e.com/A.pdf").1] ++
        [(parse_url_info "https://e.com/A.pdf").2] ++
        [(parse_url_info "https://e.com/A.pdf").2 ++ "." ++ "mp4"]) = some 9 ∧
      pout.tried.map Prod.fst =
        ["https://x/y/item.mov", pairBaseVideoUrl "https://x/y/item.mov" ++ "." ++ "mp4"] :=
  claim_C4.2 (fun u _ => if u = "https://x/y/item.mp4" then .status 200 9 else .status 404 0)
    "https://e.com/A.pdf" "https://x/y/item.mov" ["out"] ⟨[], [], []⟩
    (by decide) (fun q _ => rfl) (fun j => Or.inr (Or.inl rfl)) 200 9 (by decide)
    (by decide) (by decide) (by decide)

/-- Claim C1: for a pair whose companion probing never succeeds (the
transport yields no success for any companion attempt URL), materialized
into a fresh group directory (and with a priority list that does not
contain `"pdf"`, which would collide with the primary asset's file),
`download_pair` removes the identity's folder — it does not exist on
disk afterwards, even though the primary fetch may have succeeded — and
returns both flags false, so the result reports `companionOK = false`;
the dispatcher then counts the pair as failed and does not add its key
to the progress ledger. -/
theorem claim_C1 (net : Net) (pdfUrl videoUrl : String) (baseDir : FsPath)
    (es : List String) (fs : FS) (completed : Finset String) (s f : Nat)
    (hdir : fs.isDir (baseDir ++ [(parse_url_info pdfUrl).1]) = false)
    (hfresh : ∀ q, (baseDir ++ [(parse_url_info pdfUrl).1]) <+: q → fs.size? q = none)
    (hnopdf : "pdf" ∉ es)
    (hfail : ∀ u j, u ∈ companionAttemptURLs videoUrl es →
      notSuccess (net (encodeSpaces u) j)) :
    ∃ pout, download_pair net pdfUrl videoUrl baseDir es fs = .ok pout ∧
      pout.pdfOk = false ∧ pout.vidOk = false ∧
      pout.fs.isDir (baseDir ++ [(parse_url_info pdfUrl).1] ++
        [(parse_url_info pdfUrl).2]) = false ∧
      (∀ q, (baseDir ++ [(parse_url_info pdfUrl).1] ++ [(parse_url_info pdfUrl).2]) <+: q →
        pout.fs.size? q = none) ∧
      processOutcome pout.pdfOk pout.vidOk (pairKey pdfUrl) completed s f =
        (completed, s, f + 1) := by
  have hF := pairFolder_default fs pdfUrl baseDir hdir
  have hunder : ∀ e : String,
      fs.size? (pairFolder fs pdfUrl baseDir ++
        [(parse_url_info pdfUrl).2 ++ "." ++ e]) = none := by
    intro e
    rw [hF]
    refine hfresh _ ⟨[(parse_url_info pdfUrl).2] ++
      [(parse_url_info pdfUrl).2 ++ "." ++ e], by simp⟩
  obtain ⟨o1, ho1, -, heff1, -⟩ := download_file_spec net pdfUrl
    (pairFolder fs pdfUrl baseDir ++ [(parse_url_info pdfUrl).2 ++ ".pdf"])
    (fs.makedirs (pairFolder fs pdfUrl baseDir))
  have hpath1 : ∀ e : String, e ≠ "pdf" →
      o1.fs.size? (pairFolder fs pdfUrl baseDir ++
        [(parse_url_info pdfUrl).2 ++ "." ++ e]) = none := by
    intro e he
    refine heff1 _ ?_ (by rw [size?_makedirs]; exact hunder e)
    rw [pdfExt_eq]
    exact ext_path_ne he _
  obtain ⟨c, hc, hcok, hceff⟩ := companionLoop_fail net videoUrl (pairBaseVideoUrl videoUrl)
    es.head? (pairFolder fs pdfUrl baseDir) (parse_url_info pdfUrl).2 es o1.fs
    (fun u j hu => hfail u j hu)
    (fun e he => hpath1 e (fun heq => hnopdf (heq ▸ he)))
  refine ⟨⟨false, false, (parse_url_info pdfUrl).1, (parse_url_info pdfUrl).2, none,
    c.fs.rmtree (pairFolder fs pdfUrl baseDir), o1.reqs ++ c.reqs, c.tried⟩,
    ?_, rfl, rfl, ?_, ?_, rfl⟩
  · unfold download_pair
    simp only [ho1, hc]
    rw [if_neg (by rw [hcok]; exact Bool.false_ne_true)]
  · show (FS.rmtree c.fs (pairFolder fs pdfUrl baseDir)).isDir
      (baseDir ++ [(parse_url_info pdfUrl).1] ++ [(parse_url_info pdfUrl).2]) = false
    rw [hF]
    exact isDir_rmtree_self c.fs _
  · intro q hq
    show (FS.rmtree c.fs (pairFolder fs pdfUrl baseDir)).size? q = none
    rw [hF]
    exact size?_rmtree_under c.fs _ q hq

/-- Witness for C1: an always-404 transport, a fresh filesystem and the
priority list `["mov", "mp4"]` — the pair is discarded, its folder is
absent, and the dispatcher counts one failure without touching the
ledger. -/
theorem claim_C1_witness :
    ∃ pout, download_pair (fun _ _ => .status 404 0) "https://e.com/A.pdf"
        "https://e.com/A.mov" ["out"] ["mov", "mp4"] ⟨[], [], []⟩ = .ok pout ∧
      pout.pdfOk = false ∧ pout.vidOk = false ∧
      pout.fs.isDir (["out"] ++ [(parse_url_info "https://e.com/A.pdf").1] ++
        [(parse_url_info "https://e.com/A.pdf").2]) = false ∧
      (∀ q, (["out"] ++ [(parse_url_info "https://e.com/A.pdf").1] ++
        [(parse_url_info "https://e.com/A.pdf").2]) <+: q →
        pout.fs.size? q = none) ∧
      processOutcome pout.pdfOk pout.vidOk (pairKey "https://e.com/A.pdf")
        (∅ : Finset String) 0 0 = (∅, 0, 1) :=
  claim_C1 (fun _ _ => .status 404 0) "https://e.com/A.pdf" "https://e.com/A.mov"
    ["out"] ["mov", "mp4"] ⟨[], [], []⟩ ∅ 0 0 (by decide) (fun q _ => rfl)
    (by decide) (fun u j _ => Or.inr (Or.inl rfl))

end EpsteinScraper
